import Mathlib

/-!
# STUN binding codec (emvcoder/stun): shallow embedding and verified properties

The Go sources `decode.go` and `stun.go` are embedded as Lean functions.

* A Go byte is a `Nat` below 256; Go `int16` / `int32` / `int` values are `Int`, with
  explicit wrap-around (`int16`, `int32` below) wherever the source narrows a value.
* A Go `[]byte` is a `Slice`: the `len` visible bytes plus the bytes of the backing array
  that lie between `len` and `cap` (a re-slice may reach them).
* A Go `error` is an `Option String` (`none` is `nil`); a Go slice of attributes is a `List`
  (`nil` and the empty slice are both `[]`).
* A run-time panic is the `panic` outcome of `Run`.
* `bytes.Reader` is a `Reader`: the unread bytes and the original size.
-/

namespace Stun

/-! ## Run-time model -/

/-- Faults that end a run of the embedded code without a returned value. -/
inductive Fault where
  /-- Go run-time error "slice bounds out of range". -/
  | sliceBounds
  /-- Go run-time error "index out of range". -/
  | indexRange
  /-- Loop budget of the embedding exhausted (not a Go behaviour). -/
  | fuel
deriving DecidableEq, Repr

/-- Outcome of running a Go function: it returns, or it panics. -/
inductive Run (α : Type) where
  | ret (a : α)
  | panic (f : Fault)
deriving DecidableEq, Repr

/-- Sequencing: a panic propagates. -/
def Run.bind {α β : Type} (x : Run α) (f : α → Run β) : Run β :=
  match x with
  | .ret a => f a
  | .panic e => .panic e

instance : Monad Run where
  pure := Run.ret
  bind := Run.bind

/-- A Go `[]byte`: `data` are the elements `0 .. len-1`, `spare` the elements of the backing
array from `len` up to `cap`. -/
structure Slice where
  data : List Nat
  spare : List Nat
deriving DecidableEq, Repr

/-- Go `len(s)`. -/
def Slice.len (s : Slice) : Int := s.data.length

/-- Go `cap(s)`. -/
def Slice.cap (s : Slice) : Int := s.data.length + s.spare.length

/-- Go `s[lo:hi]`: panics unless `0 ≤ lo ≤ hi ≤ cap(s)`. -/
def Slice.slice (s : Slice) (lo hi : Int) : Run Slice :=
  if 0 ≤ lo ∧ lo ≤ hi ∧ hi ≤ s.cap then
    .ret { data := ((s.data ++ s.spare).drop lo.toNat).take (hi - lo).toNat,
           spare := (s.data ++ s.spare).drop hi.toNat }
  else .panic .sliceBounds

/-- Go `s[lo:]`, that is `s[lo:len(s)]`. -/
def Slice.sliceFrom (s : Slice) (lo : Int) : Run Slice := s.slice lo s.len

/-- Go `s[:hi]`, that is `s[0:hi]`. -/
def Slice.sliceTo (s : Slice) (hi : Int) : Run Slice := s.slice 0 hi

/-- A `bytes.Reader`: the bytes not yet read and `Size()`, the length of the slice it was
created on. -/
structure Reader where
  unread : List Nat
  size : Nat
deriving DecidableEq, Repr

/-- Go `bytes.NewReader(b)`: reads the `len(b)` visible bytes. -/
def NewReader (b : Slice) : Reader := { unread := b.data, size := b.data.length }

/-- Go `io.ReadFull(r, bs)` with `len(bs) = n`: with `n` bytes unread they are returned and
consumed; otherwise the call fails, having consumed whatever was unread. -/
def Reader.readFull (r : Reader) (n : Nat) : Option (List Nat) × Reader :=
  if n ≤ r.unread.length then (some (r.unread.take n), { r with unread := r.unread.drop n })
  else (none, { r with unread := [] })

/-- Go `io.CopyN(ioutil.Discard, r, n)`: consumes `n` bytes, or all of them when fewer are
unread; nothing when `n ≤ 0`. -/
def Reader.discard (r : Reader) (n : Int) : Reader := { r with unread := r.unread.drop n.toNat }

/-- Big-endian value of a byte sequence. -/
def beUint (bs : List Nat) : Nat := bs.foldl (fun acc b => acc * 256 + b) 0

/-- The `int16` with the given 16-bit pattern (two's complement). -/
def int16 (p : Int) : Int := (p + 32768) % 65536 - 32768

/-- The `int32` with the given 32-bit pattern (two's complement). -/
def int32 (p : Int) : Int := (p + 2147483648) % 4294967296 - 2147483648

/-- The 16-bit pattern of an `int16`. -/
def bits16 (v : Int) : Nat := (v % 65536).toNat

/-- The 32-bit pattern of an `int32`. -/
def bits32 (v : Int) : Nat := (v % 4294967296).toNat

/-- The 64-bit pattern of an `int`. -/
def bits64 (v : Int) : Nat := (v % 18446744073709551616).toNat

/-- Go `x & y` on `int16` operands. -/
def and16 (x y : Int) : Int := int16 ((bits16 x &&& bits16 y : Nat) : Int)

/-- Go `binary.Read(r, binary.BigEndian, &v)` for `v` of type `int16`; `cur` is the value of
`v` before the call. Two bytes are read; when they are not available the call fails (every
caller drops the error) and `v` keeps its value. -/
def readInt16 (r : Reader) (cur : Int) : Int × Reader :=
  let res := r.readFull 2
  (res.1.elim cur (fun bs => int16 (beUint bs)), res.2)

/-- Go `binary.Read(r, binary.BigEndian, &v)` for `v` of type `int32`. -/
def readInt32 (r : Reader) (cur : Int) : Int × Reader :=
  let res := r.readFull 4
  (res.1.elim cur (fun bs => int32 (beUint bs)), res.2)

/-- Go `binary.Read(r, order, &v)` for `v` of type `int`: `int` has no fixed size, so
`binary.Read` returns the error "invalid type *int" before reading anything; `v` keeps its
value and the reader is untouched. -/
def readInt (r : Reader) (cur : Int) : Int × Reader := (cur, r)

/-- Go `binary.Read(r, order, v)` for `v` an `int16` passed by value: the callee cannot
assign to the caller's variable (and reports "invalid type int16"), so `v` keeps its value. -/
def readInt16ByValue (_r : Reader) (cur : Int) : Int := cur

/-- Go `binary.BigEndian.Uint16(b)`: indexes `b[1]`, so it panics on fewer than two bytes. -/
def Uint16 (b : List Nat) : Run Nat :=
  match b with
  | b0 :: b1 :: _ => .ret ((b0 * 256 + b1) % 65536)
  | _ => .panic .indexRange

/-- Go `binary.BigEndian.Uint32(b)`: indexes `b[3]`, so it panics on fewer than four bytes. -/
def Uint32 (b : List Nat) : Run Nat :=
  match b with
  | b0 :: b1 :: b2 :: b3 :: _ => .ret ((((b0 * 256 + b1) * 256 + b2) * 256 + b3) % 4294967296)
  | _ => .panic .indexRange

/-- Go `strconv.Itoa` on the non-negative values the source passes (bytes, `uint16`). -/
def Itoa (n : Nat) : String := Nat.repr n

/-- Go `string(v)` for an integer `v`: the UTF-8 text of the code point `v`, or U+FFFD when
`v` is not a valid code point. -/
def runeString (v : Nat) : String :=
  if v < 0xD800 ∨ (0xE000 ≤ v ∧ v ≤ 0x10FFFF) then String.singleton (Char.ofNat v)
  else String.singleton (Char.ofNat 0xFFFD)

/-- Big-endian encoding of `v` on `n` bytes, as `binary.Write` emits it. -/
def beBytes : Nat → Nat → List Nat
  | 0, _ => []
  | n + 1, v => beBytes n (v / 256) ++ [v % 256]

/-! ## Data model (`decode.go`, `stun.go`) -/

structure Body where
  Family : Int
  Address : String
  Port : String
  Packet : String
deriving DecidableEq, Repr

structure Attrs where
  PacketType : Nat
  Data : Body
deriving DecidableEq, Repr

structure Header where
  Method : Int
  Length : Int
  MagicCookie : Int
  Tid : Int
deriving DecidableEq, Repr

structure Response where
  Header : Header
  Attributes : List Attrs
  Address : String
  Port : String
deriving DecidableEq, Repr

/-- Go zero value `Body{}`. -/
def Body.zero : Body := { Family := 0, Address := "", Port := "", Packet := "" }

/-- Go zero value `Header{}`. -/
def Header.zero : Header := { Method := 0, Length := 0, MagicCookie := 0, Tid := 0 }

/-- Go zero value `Response{}`. -/
def Response.zero : Response :=
  { Header := Header.zero, Attributes := [], Address := "", Port := "" }

/-! ### The `packet` value of `stun.go` -/

/-- Map `ATTR`; a missing key reads as 0. -/
def packet.ATTR (key : String) : Int :=
  if key = "MAPPED_ADDRESS" then 0x0001
  else if key = "USERNAME" then 0x0006
  else if key = "MESSAGE_INTEGRITY" then 0x0008
  else if key = "ERROR_CODE" then 0x0009
  else if key = "UNKNOWN_ATTRIBUTES" then 0x000A
  else if key = "REALM" then 0x0014
  else if key = "NONCE" then 0x0015
  else if key = "XOR_MAPPED_ADDRESS" then 0x0020
  else if key = "SOFTWARE" then 0x8022
  else if key = "ALTERNATE_SERVER" then 0x8023
  else if key = "FINGERPRINT" then 0x8028
  else 0

/-- Map `METHOD`; a missing key reads as 0. -/
def packet.METHOD (key : String) : Int :=
  if key = "REQUEST" then 0x0000
  else if key = "INDICATION" then 0x0010
  else if key = "RESPONSE_S" then 0x0100
  else if key = "RESPONSE_E" then 0x0110
  else 0

def packet.BINDING_CLASS : Int := 0x0001

def packet.MAGIC_COOKIE : Int := 0x2112A442

/-- Value `int(math.Pow(2, float64(32)))` on a 64-bit `int`. -/
def packet.MAX_TRANSACTIONID : Int := 4294967296

/-- Sixth field of the `Package` literal. -/
def packet.METHOD_MASK : Int := 0x0110

def packet.HEADER_LENGTH : Int := 20

/-! ## `decode.go` -/

/-- Source `packetTest`. -/
def packetTest (buffer : Slice) : Option String :=
  let block : Int := 0
  let buf := NewReader buffer
  let block := (readInt buf block).1
  if (bits64 block &&& 0x80 = 0) ∧ (bits64 block &&& 0x40 = 0) then none
  else some "This packet is not a stun packet"

/-- Source `decodeHeader`. -/
def decodeHeader (buffer : Slice) : Header × Option String :=
  let buf := NewReader buffer
  let rMethod := readInt16 buf 0
  let hMethod := and16 rMethod.1 packet.METHOD_MASK
  let rLength := readInt16 rMethod.2 0
  let rMagicCookie := readInt32 rLength.2 0
  let buf := rMagicCookie.2.discard 7
  let rTid := readInt32 buf 0
  ({ Method := hMethod, Length := rLength.1, MagicCookie := rMagicCookie.1, Tid := rTid.1 }, none)

/-- The loop building `stringAddress`: every part but the last is followed by a dot.
`i` is the index of the head of `parts`, `n` is `len(address)`. -/
def joinParts (n : Nat) : Nat → List Nat → String → String
  | _, [], acc => acc
  | i, part :: parts, acc =>
    if i + 1 ≠ n then joinParts n (i + 1) parts (acc ++ (Itoa part ++ "."))
    else joinParts n (i + 1) parts (acc ++ Itoa part)

/-- Source loop `for i, part := range address` of both address decoders. -/
def renderAddress (address : List Nat) : String := joinParts address.length 0 address ""

/-- Source `mappedAddressDecoding`. -/
def mappedAddressDecoding (buffer : Slice) : Run Body := do
  let family ← (do let b ← buffer.sliceTo 2; Uint16 b.data)
  let port ← (do let b ← buffer.slice 2 4; Uint16 b.data)
  let address ← buffer.sliceFrom 4
  let decodedFamily : Int := if family = 0x02 then 6 else 4
  let stringAddress := if decodedFamily = 4 then renderAddress address.data else ""
  return { Address := stringAddress, Family := decodedFamily, Port := Itoa port,
           Packet := "MAPPED-ADDRESS" }

/-- Loop of `_xor`, from index `i` on (the arguments are `a[i:]` and `b[i:]`): it ranges
over `a` and indexes `b[i]`, which panics as soon as `i` reaches `len(b)`. -/
def xorLoop : List Nat → List Nat → Run (List Nat)
  | [], _ => .ret []
  | _ :: _, [] => .panic .indexRange
  | x :: a, y :: b => (xorLoop a b).bind fun t => .ret ((x ^^^ y) :: t)

/-- Source `_xor`. -/
def _xor (a b : List Nat) : Run (List Nat) :=
  if a.length < b.length then xorLoop b a else xorLoop a b

/-- Source `xorMappedAddressDecoding`. -/
def xorMappedAddressDecoding (buffer buffer_header : Slice) : Run Body := do
  let buf := NewReader buffer
  let family : Int := 0
  let family := readInt16ByValue buf family
  let decodedFamily : Int := if family = 0x02 then 6 else 4
  let magic ← buffer_header.slice 4 8
  let tid ← buffer_header.slice 8 20
  let xport ← buffer.slice 2 4
  let xaddress ← if decodedFamily = 4 then buffer.slice 4 8 else buffer.slice 4 20
  let magic2 ← magic.sliceTo 2
  let port ← _xor xport.data magic2.data
  let address ← if decodedFamily = 4 then _xor xaddress.data magic.data
                else _xor xaddress.data (magic.data ++ tid.data)
  let stringAddress := renderAddress address
  let portValue ← Uint16 port
  return { Family := decodedFamily, Address := stringAddress, Port := Itoa portValue,
           Packet := "XOR-MAPPED-ADDRESS" }

/-- Source `errorCodeDecoding`; the returned error is its message. In
`(block & 0x700) * 100 + block & 0xff` the operators `&` and `*` bind tighter than `+`. -/
def errorCodeDecoding (buffer : Slice) : Run String := do
  let block ← (do let b ← buffer.sliceTo 4; Uint32 b.data)
  let code := ((block &&& 0x700) * 100 + (block &&& 0xff)) % 4294967296
  let reason ← (do let b ← buffer.slice 4 8; Uint32 b.data)
  return "Error: code: " ++ runeString code ++ ", reason: " ++ runeString reason

/-- Source `unknownAttributesDecoding`, by recursion on the unread bytes: with two or more
unread bytes `binary.Read` yields a code; with a single one it fails, having consumed it,
and the zero `ukattr` is appended. -/
def unknownAttributesDecoding : List Nat → List Int
  | [] => []
  | [_] => [0]
  | b0 :: b1 :: rest => int16 (beUint [b0, b1]) :: unknownAttributesDecoding rest

/-- Source `unknownAttributesDecoding`, statement by statement on the reader: the loop
`for buf.Len() > 0`, with `data` the slice built so far. The first argument bounds the number
of iterations (`unknownAttributesLoop_eq`: it is never used up and the result is that of
`unknownAttributesDecoding`). -/
def unknownAttributesLoop : Nat → Reader → List Int → Run (List Int)
  | 0, _, _ => .panic .fuel
  | fuel + 1, buf, data =>
    if buf.unread.length > 0 then
      let r := readInt16 buf 0
      unknownAttributesLoop fuel r.2 (data ++ [r.1])
    else .ret data

/-- The padded length of `decodeAttrs` (`blockout := length % 4; if blockout > 0 { length += 4
- blockout }`) as a function of the declared `int16` length; the loop computes this very
expression (`decodeAttrsLoop_paddedLength`). -/
def paddedLength (length : Int) : Int :=
  let blockout := Int.tmod length 4
  if blockout > 0 then int16 (length + (4 - blockout)) else length

/-- Loop of `decodeAttrs`; `buf` is the reader, `offset` and `attributes` the loop variables.
The first argument bounds the number of iterations. -/
def decodeAttrsLoop (buffer buffer_header : Slice) :
    Nat → Reader → Int → List Attrs → Run (List Attrs × Option String)
  | 0, _, _, _ => .panic .fuel
  | fuel + 1, buf, offset, attributes =>
    if offset < buf.size then
      let body : Body := Body.zero
      let rType := readInt16 buf 0
      let packetType := rType.1
      let offset := offset + 2
      let rLength := readInt16 rType.2 0
      let length := rLength.1
      let buf := rLength.2
      let offset := offset + 2
      let blockout := Int.tmod length 4
      let length := if blockout > 0 then int16 (length + (4 - blockout)) else length
      if length = 0 ∨ length + offset > buf.size then .ret (attributes, none)
      else
        (buffer.slice offset (offset + length)).bind fun value =>
          let offset := offset + length
          let buf := buf.discard offset
          if packetType = packet.ATTR "MAPPED_ADDRESS" then
            (mappedAddressDecoding value).bind fun body =>
              decodeAttrsLoop buffer buffer_header fuel buf offset
                (attributes ++ [{ PacketType := bits16 packetType % 256, Data := body }])
          else if packetType = packet.ATTR "XOR_MAPPED_ADDRESS" then
            (xorMappedAddressDecoding value buffer_header).bind fun body =>
              decodeAttrsLoop buffer buffer_header fuel buf offset
                (attributes ++ [{ PacketType := bits16 packetType % 256, Data := body }])
          else if packetType = packet.ATTR "ERROR_CODE" then
            (errorCodeDecoding value).bind fun error => .ret ([], some error)
          else if packetType = packet.ATTR "UNKNOWN_ATTRIBUTES" then
            let _ := unknownAttributesDecoding value.data
            decodeAttrsLoop buffer buffer_header fuel buf offset
              (attributes ++ [{ PacketType := bits16 packetType % 256, Data := body }])
          else
            decodeAttrsLoop buffer buffer_header fuel buf offset
              (attributes ++ [{ PacketType := bits16 packetType % 256, Data := body }])
    else .ret (attributes, none)

/-- Source `decodeAttrs`. Every iteration that does not leave the loop advances `offset`
by more than 4, so `len(buffer) + 1` iterations are never used up (`decodeAttrs_noFuel`). -/
def decodeAttrs (buffer buffer_header : Slice) : Run (List Attrs × Option String) :=
  decodeAttrsLoop buffer buffer_header (buffer.data.length + 1) (NewReader buffer) 0 []

/-- Go `attrs[i]`: panics when `i` is not below `len(attrs)`. -/
def index (attrs : List Attrs) (i : Nat) : Run Attrs :=
  (attrs.get? i).elim (.panic .indexRange) .ret

/-- Source `Decode`. -/
def Decode (buffer : Slice) : Run (Response × Option String) :=
  let err := packetTest buffer
  if err ≠ none then .ret (Response.zero, err)
  else
    (buffer.sliceTo packet.HEADER_LENGTH).bind fun buf_header =>
      let rHeader := decodeHeader buf_header
      if rHeader.2 ≠ none then .ret (Response.zero, rHeader.2)
      else
        (buffer.sliceFrom packet.HEADER_LENGTH).bind fun buf_attrs =>
          (decodeAttrs buf_attrs buf_header).bind fun rAttrs =>
            if rAttrs.2 ≠ none then .ret (Response.zero, rAttrs.2)
            else
              let attrs := rAttrs.1
              (index attrs 0).bind fun first =>
                .ret ({ Header := rHeader.1, Attributes := attrs,
                        Address := first.Data.Address, Port := first.Data.Port }, none)

/-! ## `stun.go` -/

/-- Go `binary.Write(buffer, binary.BigEndian, v)` for `v` of type `int16`. -/
def writeInt16 (buffer : List Nat) (v : Int) : List Nat := buffer ++ beBytes 2 (bits16 v)

/-- Go `binary.Write(buffer, binary.BigEndian, v)` for `v` of type `int32`. -/
def writeInt32 (buffer : List Nat) (v : Int) : List Nat := buffer ++ beBytes 4 (bits32 v)

/-- Source `preparePacket`; `transaction` is the value `getTransactionId` returned, the
result is the new `MESSAGE`. Here `packet.BINDING_CLASS & 0x3fff` is on non-negative `int`. -/
def preparePacket (transaction : Int) : List Nat :=
  let buffer : List Nat := []
  let buffer := writeInt16 buffer (int16 ((packet.BINDING_CLASS.toNat &&& 0x3fff : Nat) : Int))
  let buffer := writeInt16 buffer (int16 0)
  let buffer := writeInt32 buffer (int32 packet.MAGIC_COOKIE)
  let buffer := writeInt32 buffer (int32 0)
  let buffer := writeInt32 buffer (int32 0)
  let buffer := writeInt32 buffer (int32 transaction)
  buffer

/-- The values `getTransactionId` can return: `rand.Intn(MAX_TRANSACTIONID)` lies in
`[0, MAX_TRANSACTIONID)`. -/
def isTransactionId (t : Int) : Prop := 0 ≤ t ∧ t < packet.MAX_TRANSACTIONID

instance (t : Int) : Decidable (isTransactionId t) := by
  unfold isTransactionId; exact inferInstance

/-! ## Notions of the specification -/

/-- The first address-bearing attribute of a decoded sequence, in the words of the
specification: the first entry that the MAPPED-ADDRESS or the XOR-MAPPED-ADDRESS decoder
produced. -/
def firstAddressBearing (attrs : List Attrs) : Option Attrs :=
  attrs.find? fun a =>
    decide (a.Data.Packet = "MAPPED-ADDRESS" ∨ a.Data.Packet = "XOR-MAPPED-ADDRESS")

/-- The padded length in the words of the specification: the least multiple of 4 that is
at least the declared length `L`. -/
def specPaddedLength (L : Nat) : Nat := (L + 3) / 4 * 4

/-- The error that the specification describes for an ERROR-CODE attribute: the numeric code
`class * 100 + number` in decimal and the reason phrase. -/
def specErrorMessage (cls number : Nat) (reason : String) : String :=
  "Error: code: " ++ Nat.repr (cls * 100 + number) ++ ", reason: " ++ reason

/-- The error component of an outcome of `Decode`: whether it panicked, and otherwise the
`error` it returned. -/
def errorOf (r : Run (Response × Option String)) : Run (Option String) :=
  r.bind fun res => .ret res.2

/-- Two outcomes agree up to `R`: both return, with results related by `R`, or both panic
with the same fault. -/
def RunRel {α β : Type} (R : α → β → Prop) : Run α → Run β → Prop
  | .ret a, .ret b => R a b
  | .panic e, .panic e1 => e = e1
  | _, _ => False

/-- A 20-byte header with the fixed magic cookie, used by the concrete messages below. -/
def sampleHeader : List Nat :=
  [1, 1, 0, 24, 0x21, 0x12, 0xA4, 0x42, 0, 0, 0, 0, 0, 0, 0, 0, 1, 2, 3, 4]

/-! ## Auxiliary lemmas -/

@[simp] theorem Run.ret_bind {α β : Type} (a : α) (f : α → Run β) : (Run.ret a >>= f) = f a := rfl

@[simp] theorem Run.panic_bind {α β : Type} (e : Fault) (f : α → Run β) :
    (Run.panic e >>= f) = Run.panic e := rfl

@[simp] theorem Run.pure_eq {α : Type} (a : α) : (pure a : Run α) = Run.ret a := rfl

/-- Related outcomes stay related under sequencing. -/
theorem RunRel.bind {α β γ δ : Type} {R : α → β → Prop} {S : γ → δ → Prop}
    {x : Run α} {y : Run β} {f : α → Run γ} {g : β → Run δ}
    (h : RunRel R x y) (hfg : ∀ a b, R a b → RunRel S (f a) (g b)) :
    RunRel S (x.bind f) (y.bind g) := by
  cases x <;> cases y <;> simp_all [RunRel, Run.bind]

theorem RunRel.of_eq {α : Type} {R : α → α → Prop} (hR : ∀ a, R a a) (x : Run α) :
    RunRel R x x := by
  cases x <;> simp [RunRel, hR]

theorem RunRel.eq_refl {α : Type} (x : Run α) : RunRel Eq x x := by
  cases x <;> simp [RunRel]

/-- The check of `packetTest` never fails: `block` is still 0 when it is tested. -/
theorem packetTest_none (buffer : Slice) : packetTest buffer = none := by
  simp [packetTest, readInt, bits64]

theorem decodeHeader_data (h sp : List Nat) :
    decodeHeader ⟨h, sp⟩ = decodeHeader ⟨h, []⟩ := rfl

/-- The error returned by `decodeHeader` is always `nil`. -/
theorem decodeHeader_nil_error (buffer : Slice) : (decodeHeader buffer).2 = none := rfl

/-- A slice expression within bounds returns `hi - lo` bytes and keeps the rest of the capacity. -/
theorem slice_ok (s : Slice) (lo hi : Int) (h : 0 ≤ lo ∧ lo ≤ hi ∧ hi ≤ s.cap) :
    ∃ r, s.slice lo hi = .ret r ∧ (r.data.length : Int) = hi - lo ∧ r.cap = s.cap - lo := by
  refine ⟨_, by rw [Slice.slice, if_pos h], ?_, ?_⟩
  · simp only [Slice.cap] at h
    simp only [List.length_take, List.length_drop, List.length_append]
    omega
  · simp only [Slice.cap] at h ⊢
    simp only [List.length_take, List.length_drop, List.length_append]
    omega

theorem slice_fail (s : Slice) (lo hi : Int) (h : ¬ (0 ≤ lo ∧ lo ≤ hi ∧ hi ≤ s.cap)) :
    s.slice lo hi = .panic .sliceBounds := by
  rw [Slice.slice, if_neg h]

/-- Slicing `buffer[:n]` off a buffer that starts with the `n` bytes `h`. -/
theorem slice_header (h t sp : List Nat) (n : Int) (hn : n = h.length) :
    Slice.sliceTo ⟨h ++ t, sp⟩ n = .ret ⟨h, t ++ sp⟩ := by
  subst hn
  simp [Slice.sliceTo, Slice.slice, Slice.cap]
  omega

/-- Slicing `buffer[n:]` off a buffer that starts with the `n` bytes `h`. -/
theorem slice_attrs (h t sp : List Nat) (n : Int) (hn : n = h.length) :
    Slice.sliceFrom ⟨h ++ t, sp⟩ n = .ret ⟨t, sp⟩ := by
  subst hn
  have e : ((h.length : Int) + (t.length : Int)).toNat = (h ++ t).length := by
    rw [← Nat.cast_add, Int.toNat_natCast, List.length_append]
  simp only [Slice.sliceFrom, Slice.slice, Slice.cap, Slice.len, List.length_append,
    Nat.cast_add, Int.toNat_natCast, add_sub_cancel_left, e]
  rw [if_pos (by omega)]
  simp

/-- The value slice of an attribute whose header bytes are `hd`. -/
theorem slice_value (hd v rest sp : List Nat) (lo hi : Int) (hlo : lo = hd.length)
    (hhi : hi = hd.length + v.length) :
    Slice.slice ⟨hd ++ (v ++ rest), sp⟩ lo hi = .ret ⟨v, rest ++ sp⟩ := by
  subst hlo hhi
  have c : (0 : Int) ≤ hd.length ∧ (hd.length : Int) ≤ hd.length + v.length
      ∧ (hd.length : Int) + v.length ≤ Slice.cap ⟨hd ++ (v ++ rest), sp⟩ := by
    simp only [Slice.cap, List.length_append]
    omega
  rw [Slice.slice, if_pos c]
  have e1 : ((hd.length : Int) + v.length - hd.length).toNat = v.length := by omega
  have e2 : ((hd.length : Int) + v.length).toNat = (hd ++ v).length := by
    simp only [List.length_append]; omega
  simp only [Int.toNat_natCast, e1, e2]
  rw [List.append_assoc hd, List.drop_left, List.append_assoc v, List.take_left]
  rw [← List.append_assoc hd v, List.drop_left]

theorem sliceTo_rel (b b1 : Slice) (n : Int) (h : b.cap = b1.cap) :
    RunRel (fun s s1 => s.cap = s1.cap) (b.sliceTo n) (b1.sliceTo n) := by
  unfold Slice.sliceTo
  by_cases hc : 0 ≤ (0 : Int) ∧ 0 ≤ n ∧ n ≤ b.cap
  · obtain ⟨r, hr, -, hcap⟩ := slice_ok b 0 n hc
    obtain ⟨r1, hr1, -, hcap1⟩ := slice_ok b1 0 n (h ▸ hc)
    rw [hr, hr1]
    simp only [RunRel]
    omega
  · rw [slice_fail b 0 n hc, slice_fail b1 0 n (h ▸ hc)]
    rfl

/-- Reading an `int16` when two bytes are unread. -/
theorem readInt16_cons (b0 b1 : Nat) (rest : List Nat) (s : Nat) (cur : Int) :
    readInt16 ⟨b0 :: b1 :: rest, s⟩ cur = (int16 ((b0 * 256 + b1 : Nat) : Int), ⟨rest, s⟩) := by
  simp [readInt16, Reader.readFull, beUint]

/-- Reading an `int32` when four bytes are unread. -/
theorem readInt32_cons (b0 b1 b2 b3 : Nat) (rest : List Nat) (s : Nat) (cur : Int) :
    readInt32 ⟨b0 :: b1 :: b2 :: b3 :: rest, s⟩ cur
      = (int32 ((((b0 * 256 + b1) * 256 + b2) * 256 + b3 : Nat) : Int), ⟨rest, s⟩) := by
  have h : 4 ≤ (b0 :: b1 :: b2 :: b3 :: rest).length := by simp
  simp only [readInt32, Reader.readFull, if_pos h, Option.elim, beUint, List.take_succ_cons,
    List.take_zero, List.foldl_cons, List.foldl_nil, List.drop_succ_cons, List.drop_zero, zero_mul,
    zero_add]

/-- Reading an `int16` from zero bytes, or from too few of them, leaves 0. -/
theorem readInt16_zeros (m s : Nat) :
    readInt16 ⟨List.replicate m 0, s⟩ 0 = (0, ⟨List.replicate (m - 2) 0, s⟩) := by
  unfold readInt16 Reader.readFull
  by_cases h : 2 ≤ m
  · have : min 2 m = 2 := by omega
    simp [h, List.take_replicate, this, beUint, int16, List.replicate]
  · have : m - 2 = 0 := by omega
    simp [h, this]

theorem ATTR_mapped : packet.ATTR "MAPPED_ADDRESS" = 1 := by decide

theorem ATTR_xor : packet.ATTR "XOR_MAPPED_ADDRESS" = 32 := by decide

theorem ATTR_error : packet.ATTR "ERROR_CODE" = 9 := by decide

theorem ATTR_unknown : packet.ATTR "UNKNOWN_ATTRIBUTES" = 10 := by decide

theorem int16_small (n : Nat) (h : n < 32768) : int16 (n : Int) = n := by
  unfold int16; omega

theorem bits16_int16 (n : Nat) (h : n < 65536) : bits16 (int16 (n : Int)) = n := by
  unfold bits16 int16; omega

theorem bits32_int32 (n : Nat) (h : n < 4294967296) : bits32 (int32 (n : Int)) = n := by
  unfold bits32 int32; omega

/-- The padded length computed by `decodeAttrs` for a declared length up to 32764. -/
theorem pad_length (L : Nat) (hL : L ≤ 32764) :
    (if Int.tmod (L : Int) 4 > 0 then int16 ((L : Int) + (4 - Int.tmod (L : Int) 4))
      else (L : Int)) = (((L + 3) / 4 * 4 : Nat) : Int) := by
  rw [Int.tmod_eq_emod (by omega) (by omega)]
  unfold int16
  split_ifs <;> omega

/-- An iteration that finds only zero bytes (or none) to read leaves the loop. -/
theorem loop_zeros (buffer hdr : Slice) (fuel m s : Nat) (offset : Int) (attrs : List Attrs) :
    decodeAttrsLoop buffer hdr (fuel + 1) ⟨List.replicate m 0, s⟩ offset attrs
      = .ret (attrs, none) := by
  rw [decodeAttrsLoop]
  simp [readInt16_zeros]

theorem decodeAttrs_nil (sp : List Nat) (hdr : Slice) :
    decodeAttrs ⟨[], sp⟩ hdr = .ret ([], none) := by
  simp [decodeAttrs, decodeAttrsLoop, NewReader]

/-- The MAPPED-ADDRESS decoder on an 8-byte value whose family selector is not 2. -/
theorem mapped_ipv4 (f0 f1 ph pl a b c d : Nat) (sp : List Nat)
    (hf : (f0 * 256 + f1) % 65536 ≠ 2) :
    mappedAddressDecoding ⟨[f0, f1, ph, pl, a, b, c, d], sp⟩
      = .ret { Family := 4,
               Address := Nat.repr a ++ "." ++ Nat.repr b ++ "." ++ Nat.repr c ++ "." ++ Nat.repr d,
               Port := Nat.repr ((ph * 256 + pl) % 65536), Packet := "MAPPED-ADDRESS" } := by
  have h2 : (2 : Int) ≤ 8 + sp.length := by omega
  have h4 : (4 : Int) ≤ 8 + sp.length := by omega
  simp [mappedAddressDecoding, Slice.sliceTo, Slice.sliceFrom, Slice.slice, Slice.cap, Slice.len,
    h2, h4, Uint16, hf, renderAddress, joinParts, Itoa, String.append_assoc]

/-- One MAPPED-ADDRESS attribute followed by zero bytes yields one entry. -/
theorem decodeAttrs_mapped_zeros (hdr : Slice) (sp : List Nat) (p a b c d k : Nat)
    (hp : p < 65536) :
    decodeAttrs ⟨[0, 1, 0, 8, 0, 1, p / 256, p % 256, a, b, c, d] ++ List.replicate k 0, sp⟩ hdr
      = .ret ([{ PacketType := 1,
                 Data := { Family := 4,
                           Address := Nat.repr a ++ "." ++ Nat.repr b ++ "." ++ Nat.repr c
                                        ++ "." ++ Nat.repr d,
                           Port := Nat.repr p, Packet := "MAPPED-ADDRESS" } }], none) := by
  have e1 : int16 ((0 * 256 + 1 : Nat) : Int) = 1 := by decide
  have e8 : int16 ((0 * 256 + 8 : Nat) : Int) = 8 := by decide
  have et : Int.tmod 8 4 = 0 := by decide
  have eb : bits16 1 % 256 = 1 := by decide
  have hport : (p / 256 * 256 + p % 256) % 65536 = p := by omega
  have hs : Slice.slice ⟨0 :: 1 :: 0 :: 8 :: 0 :: 1 :: p / 256 :: p % 256 :: a :: b :: c :: d
              :: List.replicate k 0, sp⟩ 4 12
            = .ret ⟨[0, 1, p / 256, p % 256, a, b, c, d], List.replicate k 0 ++ sp⟩ := by
    have : (12 : Int) ≤ 12 + k + sp.length := by omega
    simp [Slice.slice, Slice.cap]
    omega
  have hm := mapped_ipv4 0 1 (p / 256) (p % 256) a b c d (List.replicate k 0 ++ sp) (by decide)
  rw [hport] at hm
  unfold decodeAttrs
  rw [decodeAttrsLoop]
  simp only [NewReader, List.cons_append, List.nil_append, readInt16_cons, ATTR_mapped, e1, e8, et]
  have hlen : (0 :: 1 :: 0 :: 8 :: 0 :: 1 :: p / 256 :: p % 256 :: a :: b :: c :: d
              :: List.replicate k 0).length = k + 11 + 1 := by simp
  rw [hlen]
  have h12 : Int.toNat 12 = 12 := rfl
  have hk1 : (0 : Int) < k + 11 + 1 := by omega
  have hk2 : ¬ ((k : Int) + 11 + 1 < 12) := by omega
  norm_num [hs, Run.bind, hm, Reader.discard, eb, h12, hk1, hk2, loop_zeros]

/-- An attribute whose declared length has its top bit set: the `int16` length is negative
and the value slice `buffer[4 : 4 + length]` is out of range. -/
theorem decodeAttrs_negative_length (t0 t1 : Nat) (v sp : List Nat) (hdr : Slice) :
    decodeAttrs ⟨t0 :: t1 :: 0x80 :: 0 :: v, sp⟩ hdr = .panic .sliceBounds := by
  have el : int16 ((0x80 * 256 + 0 : Nat) : Int) = -32768 := by decide
  have et : Int.tmod (-32768) 4 = 0 := by decide
  unfold decodeAttrs
  rw [decodeAttrsLoop]
  simp only [NewReader, readInt16_cons, el, et]
  have h1 : (0 : Int) < ((t0 :: t1 :: 0x80 :: 0 :: v).length : Int) := by
    simp only [List.length_cons]; omega
  have h2 : ¬ ((-32768 : Int) = 0 ∨ -32768 + (0 + 2 + 2) > ((t0 :: t1 :: 0x80 :: 0 :: v).length : Int)) := by
    simp only [List.length_cons]; omega
  have h3 : Slice.slice ⟨t0 :: t1 :: 0x80 :: 0 :: v, sp⟩ (0 + 2 + 2) (0 + 2 + 2 + -32768)
      = .panic .sliceBounds := by
    simp [Slice.slice]
  simp only [gt_iff_lt, lt_self_iff_false, if_false] at h2 ⊢
  rw [if_pos h1, if_neg h2, h3]
  rfl

/-- The same through `Decode`, behind any 20-byte header. -/
theorem Decode_negative_length (h v sp : List Nat) (t0 t1 : Nat) (hlen : h.length = 20) :
    Decode ⟨h ++ (t0 :: t1 :: 0x80 :: 0 :: v), sp⟩ = .panic .sliceBounds := by
  unfold Decode
  simp only [packetTest_none, decodeHeader_nil_error, ne_eq, not_true_eq_false, if_false]
  rw [slice_header h _ sp _ (by rw [hlen]; rfl), slice_attrs h _ sp _ (by rw [hlen]; rfl)]
  simp only [Run.bind, decodeAttrs_negative_length]

theorem Uint32_four (b : List Nat) (h : b.length = 4) : ∃ n, Uint32 b = .ret n := by
  match b, h with
  | [b0, b1, b2, b3], _ => exact ⟨_, rfl⟩

/-- The ERROR-CODE decoder returns an error whenever 8 bytes can be sliced. -/
theorem errorCodeDecoding_ok (value : Slice) (h : 8 ≤ value.cap) :
    ∃ msg, errorCodeDecoding value = .ret msg := by
  obtain ⟨b, hb, hbl, -⟩ := slice_ok value 0 4 (by omega)
  obtain ⟨b1, hb1, hb1l, -⟩ := slice_ok value 4 8 (by omega)
  obtain ⟨n, hn⟩ := Uint32_four b.data (by omega)
  obtain ⟨n1, hn1⟩ := Uint32_four b1.data (by omega)
  refine ⟨"Error: code: " ++ runeString (((n &&& 0x700) * 100 + (n &&& 0xff)) % 4294967296)
            ++ ", reason: " ++ runeString n1, ?_⟩
  simp only [errorCodeDecoding, Slice.sliceTo, hb, hb1, hn, hn1, Run.ret_bind, Run.pure_eq]

/-- Fail-fast on a leading ERROR-CODE attribute of declared length 8 to 32764: the loop
returns the error of `errorCodeDecoding` and no attributes, whatever follows. -/
theorem decodeAttrs_error_code (L : Nat) (v rest sp : List Nat) (hdr : Slice)
    (hL : 8 ≤ L) (hL2 : L ≤ 32764) (hv : v.length = (L + 3) / 4 * 4) :
    ∃ msg, errorCodeDecoding ⟨v, rest ++ sp⟩ = .ret msg
      ∧ decodeAttrs ⟨[0x00, 0x09, L / 256, L % 256] ++ (v ++ rest), sp⟩ hdr
          = .ret ([], some msg) := by
  obtain ⟨msg, hmsg⟩ := errorCodeDecoding_ok ⟨v, rest ++ sp⟩ (by
    simp only [Slice.cap]; omega)
  refine ⟨msg, hmsg, ?_⟩
  have e9 : int16 ((0 * 256 + 9 : Nat) : Int) = 9 := by decide
  have eL : int16 ((L / 256 * 256 + L % 256 : Nat) : Int) = (L : Int) := by
    unfold int16; omega
  have hs := slice_value [0x00, 0x09, L / 256, L % 256] v rest sp (0 + 2 + 2)
    (0 + 2 + 2 + (((L + 3) / 4 * 4 : Nat) : Int)) (by simp) (by simp [hv])
  have hlen : ([0x00, 0x09, L / 256, L % 256] ++ (v ++ rest)).length
      = 4 + (L + 3) / 4 * 4 + rest.length := by
    simp only [List.length_append, List.length_cons, List.length_nil, hv]; omega
  have c1 : (0 : Int) < ((4 + (L + 3) / 4 * 4 + rest.length : Nat) : Int) := by omega
  have c2 : ¬ ((((L + 3) / 4 * 4 : Nat) : Int) = 0
      ∨ (((L + 3) / 4 * 4 : Nat) : Int) + (0 + 2 + 2)
          > ((4 + (L + 3) / 4 * 4 + rest.length : Nat) : Int)) := by omega
  have n1 : ¬ ((9 : Int) = 1) := by decide
  have n2 : ¬ ((9 : Int) = 32) := by decide
  unfold decodeAttrs
  rw [decodeAttrsLoop]
  simp only [NewReader, hlen]
  simp only [List.cons_append, List.nil_append] at hs ⊢
  simp only [readInt16_cons, e9, eL, pad_length L hL2, ATTR_mapped, ATTR_xor, ATTR_error]
  rw [if_pos c1, if_neg c2, hs]
  simp only [Run.bind, if_neg n1, if_neg n2, if_true, hmsg]

/-- The same through `Decode`: the error comes with the zero `Response`. -/
theorem Decode_error_code (L : Nat) (h v rest sp : List Nat)
    (hlen : h.length = 20) (hL : 8 ≤ L) (hL2 : L ≤ 32764) (hv : v.length = (L + 3) / 4 * 4) :
    ∃ msg, errorCodeDecoding ⟨v, rest ++ sp⟩ = .ret msg
      ∧ Decode ⟨h ++ ([0x00, 0x09, L / 256, L % 256] ++ (v ++ rest)), sp⟩
          = .ret (Response.zero, some msg) := by
  obtain ⟨msg, hmsg, hd⟩ := decodeAttrs_error_code L v rest sp ⟨h,
    [0x00, 0x09, L / 256, L % 256] ++ (v ++ rest) ++ sp⟩ hL hL2 hv
  refine ⟨msg, hmsg, ?_⟩
  unfold Decode
  simp only [packetTest_none, decodeHeader_nil_error, ne_eq, not_true_eq_false, if_false]
  rw [slice_header h _ sp _ (by rw [hlen]; rfl), slice_attrs h _ sp _ (by rw [hlen]; rfl)]
  simp only [Run.bind, hd]
  simp

theorem xorLoop_same_length :
    ∀ a b : List Nat, a.length = b.length → ∃ r, xorLoop a b = .ret r ∧ r.length = a.length
  | [], _, _ => ⟨[], rfl, rfl⟩
  | _ :: _, [], h => by simp at h
  | x :: a, y :: b, h => by
    obtain ⟨r, hr, hl⟩ := xorLoop_same_length a b (by simpa using h)
    exact ⟨(x ^^^ y) :: r, by simp [xorLoop, hr, Run.bind], by simp [hl]⟩

/-- On operands of equal length `_xor` returns. -/
theorem xor_same_length (a b : List Nat) (h : a.length = b.length) :
    ∃ r, _xor a b = .ret r ∧ r.length = a.length := by
  unfold _xor
  rw [if_neg (by omega)]
  exact xorLoop_same_length a b h

theorem Uint16_two (b : List Nat) (h : b.length = 2) : ∃ n, Uint16 b = .ret n := by
  match b, h with
  | [b0, b1], _ => exact ⟨_, rfl⟩

/-- The XOR-MAPPED-ADDRESS decoder returns when the header has capacity 20 and the value
capacity 8. -/
theorem xorMapped_ok (v hdr : Slice) (hh : 20 ≤ hdr.cap) (hv : 8 ≤ v.cap) :
    ∃ body, xorMappedAddressDecoding v hdr = .ret body := by
  obtain ⟨magic, hm, hml, hmc⟩ := slice_ok hdr 4 8 (by omega)
  obtain ⟨tid, ht, -, -⟩ := slice_ok hdr 8 20 (by omega)
  obtain ⟨xport, hxp, hxpl, -⟩ := slice_ok v 2 4 (by omega)
  obtain ⟨xaddress, hxa, hxal, -⟩ := slice_ok v 4 8 (by omega)
  obtain ⟨magic2, hm2, hm2l, -⟩ := slice_ok magic 0 2 (by omega)
  obtain ⟨port, hp, hpl⟩ := xor_same_length xport.data magic2.data (by omega)
  obtain ⟨address, ha, -⟩ := xor_same_length xaddress.data magic.data (by omega)
  obtain ⟨n, hn⟩ := Uint16_two port (by omega)
  have hf : (if (0 : Int) = 2 then (6 : Int) else 4) = 4 := by decide
  refine ⟨{ Family := 4, Address := renderAddress address, Port := Itoa n,
             Packet := "XOR-MAPPED-ADDRESS" }, ?_⟩
  simp only [xorMappedAddressDecoding, readInt16ByValue, Slice.sliceTo, hm, ht, hxp, hxa, hm2,
    hp, ha, hn, Run.ret_bind, Run.pure_eq, hf, if_true]

/-- Otherwise one of its slice expressions is out of range. -/
theorem xorMapped_fail (v hdr : Slice) (h : ¬ (20 ≤ hdr.cap ∧ 8 ≤ v.cap)) :
    xorMappedAddressDecoding v hdr = .panic .sliceBounds := by
  have hf : (if (0 : Int) = 2 then (6 : Int) else 4) = 4 := by decide
  simp only [xorMappedAddressDecoding, readInt16ByValue, hf, if_true]
  by_cases h1 : 8 ≤ hdr.cap
  · obtain ⟨magic, hm, -, -⟩ := slice_ok hdr 4 8 (by omega)
    rw [hm, Run.ret_bind]
    by_cases h2 : 20 ≤ hdr.cap
    · obtain ⟨tid, ht, -, -⟩ := slice_ok hdr 8 20 (by omega)
      rw [ht, Run.ret_bind]
      by_cases h3 : 4 ≤ v.cap
      · obtain ⟨xport, hxp, -, -⟩ := slice_ok v 2 4 (by omega)
        rw [hxp, Run.ret_bind, slice_fail v 4 8 (by omega), Run.panic_bind]
      · rw [slice_fail v 2 4 (by omega), Run.panic_bind]
    · rw [slice_fail hdr 8 20 (by omega), Run.panic_bind]
  · rw [slice_fail hdr 4 8 (by omega), Run.panic_bind]

/-- Whether the XOR-MAPPED-ADDRESS decoder returns does not depend on the header bytes. -/
theorem xorMapped_rel (v hdr hdr1 : Slice) (h : hdr.cap = hdr1.cap) :
    RunRel (fun _ _ => True) (xorMappedAddressDecoding v hdr)
      (xorMappedAddressDecoding v hdr1) := by
  by_cases hc : 20 ≤ hdr.cap ∧ 8 ≤ v.cap
  · obtain ⟨b, hb⟩ := xorMapped_ok v hdr hc.1 hc.2
    obtain ⟨b1, hb1⟩ := xorMapped_ok v hdr1 (h ▸ hc.1) hc.2
    rw [hb, hb1]; trivial
  · rw [xorMapped_fail v hdr hc, xorMapped_fail v hdr1 (h ▸ hc)]; rfl

/-- The error and the number of attributes that the loop of `decodeAttrs` returns do not
depend on the header bytes. -/
theorem loop_rel (buffer hdr hdr1 : Slice) (h : hdr.cap = hdr1.cap) :
    ∀ (fuel : Nat) (buf : Reader) (offset : Int) (attrs attrs1 : List Attrs),
      attrs.length = attrs1.length →
      RunRel (fun r r1 => r.2 = r1.2 ∧ r.1.length = r1.1.length)
        (decodeAttrsLoop buffer hdr fuel buf offset attrs)
        (decodeAttrsLoop buffer hdr1 fuel buf offset attrs1) := by
  intro fuel
  induction fuel with
  | zero => intro buf offset attrs attrs1 _; rfl
  | succ fuel ih =>
    intro buf offset attrs attrs1 hl
    rw [decodeAttrsLoop, decodeAttrsLoop]
    simp only []
    split_ifs
    all_goals first
      | exact ⟨rfl, hl⟩
      | (refine RunRel.bind (RunRel.eq_refl _) ?_
         intro value _ hv
         subst hv
         first
           | exact ih _ _ _ _ (by simp [hl])
           | (refine RunRel.bind (RunRel.eq_refl _) ?_
              intro body _ hb
              subst hb
              first
                | exact ih _ _ _ _ (by simp [hl])
                | exact ⟨rfl, rfl⟩)
           | (refine RunRel.bind (xorMapped_rel _ _ _ h) ?_
              intro body body1 _
              exact ih _ _ _ _ (by simp [hl])))

theorem decodeAttrs_rel (buffer hdr hdr1 : Slice) (h : hdr.cap = hdr1.cap) :
    RunRel (fun r r1 => r.2 = r1.2 ∧ r.1.length = r1.1.length)
      (decodeAttrs buffer hdr) (decodeAttrs buffer hdr1) :=
  loop_rel buffer hdr hdr1 h _ _ _ [] [] rfl

theorem Decode_rel (b b1 : Slice)
    (h1 : RunRel (fun s s1 => s.cap = s1.cap) (b.sliceTo packet.HEADER_LENGTH)
            (b1.sliceTo packet.HEADER_LENGTH))
    (h2 : b.sliceFrom packet.HEADER_LENGTH = b1.sliceFrom packet.HEADER_LENGTH) :
    errorOf (Decode b) = errorOf (Decode b1) := by
  unfold Decode errorOf
  simp only [packetTest_none, decodeHeader_nil_error, ne_eq, not_true_eq_false, if_false]
  rw [← h2]
  cases hs : b.sliceTo packet.HEADER_LENGTH with
  | panic e =>
    cases hs1 : b1.sliceTo packet.HEADER_LENGTH with
    | panic e1 => rw [hs, hs1] at h1; simp only [RunRel] at h1; subst h1; rfl
    | ret bh1 => rw [hs, hs1] at h1; exact h1.elim
  | ret bh =>
    cases hs1 : b1.sliceTo packet.HEADER_LENGTH with
    | panic e1 => rw [hs, hs1] at h1; exact h1.elim
    | ret bh1 =>
      rw [hs, hs1] at h1
      simp only [RunRel] at h1
      simp only [Run.bind]
      cases hf : b.sliceFrom packet.HEADER_LENGTH with
      | panic e => rfl
      | ret ba =>
        simp only
        have hr := decodeAttrs_rel ba bh bh1 h1
        cases hd : decodeAttrs ba bh with
        | panic e =>
          cases hd1 : decodeAttrs ba bh1 with
          | panic e1 => rw [hd, hd1] at hr; simp only [RunRel] at hr; subst hr; rfl
          | ret r1 => rw [hd, hd1] at hr; exact hr.elim
        | ret r =>
          cases hd1 : decodeAttrs ba bh1 with
          | panic e1 => rw [hd, hd1] at hr; exact hr.elim
          | ret r1 =>
            rw [hd, hd1] at hr
            simp only [RunRel] at hr
            obtain ⟨attrs, err⟩ := r
            obtain ⟨attrs1, err1⟩ := r1
            obtain ⟨he, hlen⟩ := hr
            simp only at he hlen
            subst he
            cases err with
            | some e => simp
            | none =>
              cases attrs with
              | nil =>
                cases attrs1 with
                | nil => rfl
                | cons a1 t1 => simp at hlen
              | cons a t =>
                cases attrs1 with
                | nil => simp at hlen
                | cons a1 t1 => simp [index]

/-- The attribute bytes `buffer[20:]` do not contain bytes 4 to 7. -/
theorem sliceFrom_cookie (pre c c1 rest sp : List Nat) (hpre : pre.length = 4)
    (hc : c.length = 4) (hc1 : c1.length = 4) :
    Slice.sliceFrom ⟨pre ++ c1 ++ rest, sp⟩ packet.HEADER_LENGTH
      = Slice.sliceFrom ⟨pre ++ c ++ rest, sp⟩ packet.HEADER_LENGTH := by
  have e : ∀ x : List Nat, x.length = 4 →
      List.drop 20 (pre ++ x ++ rest ++ sp) = List.drop 12 (rest ++ sp) := by
    intro x hx
    have : 20 = (pre ++ x).length + 12 := by simp [hpre, hx]
    rw [List.append_assoc (pre ++ x), this, List.drop_append]
  have e2 : ∀ x : List Nat, List.drop (pre ++ x ++ rest).length (pre ++ x ++ rest ++ sp) = sp := by
    intro x
    exact List.drop_left _ _
  have h20 : Int.toNat 20 = 20 := rfl
  simp only [Slice.sliceFrom, Slice.slice, Slice.len, Slice.cap, packet.HEADER_LENGTH,
    Int.toNat_natCast, h20, e c hc, e c1 hc1, e2]
  simp only [List.length_append, hc, hc1]

/-- The 20 bytes written by `preparePacket`. -/
theorem preparePacket_bytes (t : Nat) (ht : t < 4294967296) :
    preparePacket (t : Int)
      = [0, 1, 0, 0, 0x21, 0x12, 0xA4, 0x42, 0, 0, 0, 0, 0, 0, 0, 0,
         t / 16777216, t / 65536 % 256, t / 256 % 256, t % 256] := by
  have h1 : bits16 (int16 (((packet.BINDING_CLASS.toNat &&& 0x3fff : Nat)) : Int)) = 1 := by
    decide
  have h0 : bits16 (int16 0) = 0 := by decide
  have hc : bits32 (int32 packet.MAGIC_COOKIE) = 0x2112A442 := by
    unfold packet.MAGIC_COOKIE bits32 int32; omega
  have hz : bits32 (int32 0) = 0 := by decide
  have ht' := bits32_int32 t ht
  unfold preparePacket writeInt16 writeInt32
  simp only [h1, h0, hc, hz, ht', beBytes, List.nil_append, List.cons_append, List.append_assoc]
  have a1 : t / 256 / 256 / 256 % 256 = t / 16777216 := by omega
  have a2 : t / 256 / 256 % 256 = t / 65536 % 256 := by omega
  simp [a1, a2]

/-- A lone attribute header that announces 8 value bytes of which two are present: the loop
stops and returns no attribute. -/
theorem decodeAttrs_truncated (sp : List Nat) (hdr : Slice) :
    decodeAttrs ⟨[0, 1, 0, 8, 0, 1], sp⟩ hdr = .ret ([], none) := by
  have e1 : int16 ((0 * 256 + 1 : Nat) : Int) = 1 := by decide
  have e8 : int16 ((0 * 256 + 8 : Nat) : Int) = 8 := by decide
  have et : Int.tmod 8 4 = 0 := by decide
  have c1 : (0 : Int) < (([0, 1, 0, 8, 0, 1] : List Nat).length : Int) := by decide
  have c2 : (8 : Int) = 0 ∨ (8 : Int) + (0 + 2 + 2) > (([0, 1, 0, 8, 0, 1] : List Nat).length : Int) := by
    decide
  have c3 : ¬ ((0 : Int) > 0) := by decide
  unfold decodeAttrs
  rw [decodeAttrsLoop]
  simp only [NewReader, readInt16_cons, e1, e8, et, if_pos c1, if_neg c3, if_pos c2]

/-- With a 20-byte header `h` in front, `Decode` is `decodeAttrs` on the rest, followed by the
assembly of the Response. -/
theorem Decode_split (h rest sp : List Nat) (hlen : h.length = 20) :
    Decode ⟨h ++ rest, sp⟩
      = (decodeAttrs ⟨rest, sp⟩ ⟨h, rest ++ sp⟩).bind fun rAttrs =>
          if rAttrs.2 ≠ none then .ret (Response.zero, rAttrs.2)
          else
            (index rAttrs.1 0).bind fun first =>
              .ret ({ Header := (decodeHeader ⟨h, rest ++ sp⟩).1, Attributes := rAttrs.1,
                      Address := first.Data.Address, Port := first.Data.Port }, none) := by
  unfold Decode
  simp only [packetTest_none, decodeHeader_nil_error, ne_eq, not_true_eq_false, if_false]
  rw [slice_header h _ sp _ (by rw [hlen]; rfl), slice_attrs h _ sp _ (by rw [hlen]; rfl)]
  rfl

/-- The header that `decodeHeader` reads from the message of `preparePacket`: the field
`Tid` is read from bytes 15 to 18 (after reading 8 bytes the code skips 7), which gives
`t / 256`. -/
theorem decodeHeader_preparePacket_header (t : Nat) (ht : isTransactionId (t : Int)) (sp : List Nat) :
    decodeHeader ⟨preparePacket (t : Int), sp⟩
      = ({ Method := 0, Length := 0, MagicCookie := 0x2112A442,
           Tid := ((t / 256 : Nat) : Int) }, none) := by
  have ht' : t < 4294967296 := by
    have := ht.2
    simp only [packet.MAX_TRANSACTIONID] at this
    omega
  have hm : and16 (int16 ((0 * 256 + 1 : Nat) : Int)) packet.METHOD_MASK = 0 := by decide
  have hl : int16 ((0 * 256 + 0 : Nat) : Int) = 0 := by decide
  have hc : int32 ((((0x21 * 256 + 0x12) * 256 + 0xA4) * 256 + 0x42 : Nat) : Int) = 0x2112A442 := by
    unfold int32; omega
  have htid : int32 ((((0 * 256 + t / 16777216) * 256 + t / 65536 % 256) * 256 + t / 256 % 256
                 : Nat) : Int) = ((t / 256 : Nat) : Int) := by
    unfold int32; omega
  have h7 : Int.toNat 7 = 7 := rfl
  rw [preparePacket_bytes t ht']
  unfold decodeHeader
  simp only [NewReader, readInt16_cons, readInt32_cons, Reader.discard, h7, List.drop_succ_cons,
    List.drop_zero, hm, hl, hc, htid]

/-! ### Termination of the loop -/

/-- Sequencing does not exhaust the loop budget when neither part does. -/
theorem bind_noFuel {α β : Type} (x : Run α) (f : α → Run β)
    (hx : x ≠ .panic .fuel) (hf : ∀ a, x = .ret a → f a ≠ .panic .fuel) :
    x.bind f ≠ .panic .fuel := by
  cases x with
  | ret a => exact hf a rfl
  | panic e =>
    intro h
    apply hx
    simpa [Run.bind] using h

theorem seq_noFuel {α β : Type} (x : Run α) (f : α → Run β)
    (hx : x ≠ .panic .fuel) (hf : ∀ a, f a ≠ .panic .fuel) :
    (x >>= f) ≠ .panic .fuel :=
  bind_noFuel x f hx (fun a _ => hf a)

theorem slice_noFuel (s : Slice) (lo hi : Int) : s.slice lo hi ≠ .panic .fuel := by
  unfold Slice.slice
  split_ifs <;> simp

theorem slice_ret_bounds (s r : Slice) (lo hi : Int) (h : s.slice lo hi = .ret r) :
    0 ≤ lo ∧ lo ≤ hi ∧ hi ≤ s.cap := by
  unfold Slice.slice at h
  split_ifs at h with hc
  exact hc

theorem Uint16_noFuel (b : List Nat) : Uint16 b ≠ .panic .fuel := by
  unfold Uint16
  split <;> simp

theorem Uint32_noFuel (b : List Nat) : Uint32 b ≠ .panic .fuel := by
  unfold Uint32
  split <;> simp

theorem xorLoop_noFuel : ∀ a b : List Nat, xorLoop a b ≠ .panic .fuel
  | [], _ => by simp [xorLoop]
  | _ :: _, [] => by simp [xorLoop]
  | x :: a, y :: b => by
    rw [xorLoop]
    exact bind_noFuel _ _ (xorLoop_noFuel a b) (fun _ _ => by simp)

theorem xor_noFuel (a b : List Nat) : _xor a b ≠ .panic .fuel := by
  unfold _xor
  split_ifs <;> exact xorLoop_noFuel _ _

theorem mapped_noFuel (v : Slice) : mappedAddressDecoding v ≠ .panic .fuel := by
  unfold mappedAddressDecoding Slice.sliceTo Slice.sliceFrom
  refine seq_noFuel _ _ (seq_noFuel _ _ (slice_noFuel _ _ _) (fun _ => Uint16_noFuel _)) ?_
  intro family
  refine seq_noFuel _ _ (seq_noFuel _ _ (slice_noFuel _ _ _) (fun _ => Uint16_noFuel _)) ?_
  intro port
  refine seq_noFuel _ _ (slice_noFuel _ _ _) ?_
  intro address
  simp

theorem xorMapped_noFuel (v hdr : Slice) : xorMappedAddressDecoding v hdr ≠ .panic .fuel := by
  by_cases hc : 20 ≤ hdr.cap ∧ 8 ≤ v.cap
  · obtain ⟨b, hb⟩ := xorMapped_ok v hdr hc.1 hc.2
    rw [hb]; simp
  · rw [xorMapped_fail v hdr hc]; simp

theorem errorCode_noFuel (v : Slice) : errorCodeDecoding v ≠ .panic .fuel := by
  unfold errorCodeDecoding Slice.sliceTo
  refine seq_noFuel _ _ (seq_noFuel _ _ (slice_noFuel _ _ _) (fun _ => Uint32_noFuel _)) ?_
  intro block
  refine seq_noFuel _ _ (seq_noFuel _ _ (slice_noFuel _ _ _) (fun _ => Uint32_noFuel _)) ?_
  intro reason
  simp

theorem readInt16_size (r : Reader) (cur : Int) : (readInt16 r cur).2.size = r.size := by
  unfold readInt16 Reader.readFull
  split_ifs <;> rfl

theorem discard_size (r : Reader) (n : Int) : (r.discard n).size = r.size := rfl

/-- The loop of `decodeAttrs` terminates within its budget: with `offset` below the size an
iteration either leaves the loop or moves `offset` forward by more than 4. -/
theorem loop_noFuel (buffer hdr : Slice) :
    ∀ (fuel : Nat) (buf : Reader) (offset : Int) (attrs : List Attrs),
      1 ≤ fuel → (buf.size : Int) - offset < fuel →
      decodeAttrsLoop buffer hdr fuel buf offset attrs ≠ .panic .fuel := by
  intro fuel
  induction fuel with
  | zero => intro buf offset attrs h1; omega
  | succ fuel ih =>
    intro buf offset attrs _ hf
    rw [decodeAttrsLoop]
    simp only []
    by_cases hlt : offset < (buf.size : Int)
    · rw [if_pos hlt]
      simp only [readInt16_size]
      split_ifs
      all_goals first
        | (simp; done)
        | (refine bind_noFuel _ _ (slice_noFuel _ _ _) ?_
           intro value hv
           have hbd := slice_ret_bounds _ _ _ _ hv
           first
             | (apply ih
                · omega
                · rw [discard_size, readInt16_size, readInt16_size]; omega)
             | (refine bind_noFuel _ _ (mapped_noFuel _) ?_
                intro body _
                apply ih
                · omega
                · rw [discard_size, readInt16_size, readInt16_size]; omega)
             | (refine bind_noFuel _ _ (xorMapped_noFuel _ _) ?_
                intro body _
                apply ih
                · omega
                · rw [discard_size, readInt16_size, readInt16_size]; omega)
             | (refine bind_noFuel _ _ (errorCode_noFuel _) ?_
                intro e _
                simp))
    · rw [if_neg hlt]
      simp

/-- The budget `len(buffer) + 1` of `decodeAttrs` is never exhausted: `decodeAttrs` returns or
panics as the Go loop does. -/
theorem decodeAttrs_noFuel (buffer hdr : Slice) : decodeAttrs buffer hdr ≠ .panic .fuel := by
  unfold decodeAttrs
  apply loop_noFuel
  · omega
  · simp only [NewReader]; omega

theorem index_noFuel (attrs : List Attrs) (i : Nat) : index attrs i ≠ .panic .fuel := by
  unfold index
  cases attrs.get? i <;> simp

/-- Neither is it by `Decode`. -/
theorem Decode_noFuel (buffer : Slice) : Decode buffer ≠ .panic .fuel := by
  unfold Decode
  simp only [packetTest_none, decodeHeader_nil_error, ne_eq, not_true_eq_false, if_false]
  refine bind_noFuel _ _ (slice_noFuel _ _ _) ?_
  intro bh _
  refine bind_noFuel _ _ (slice_noFuel _ _ _) ?_
  intro ba _
  refine bind_noFuel _ _ (decodeAttrs_noFuel _ _) ?_
  intro r _
  split_ifs
  all_goals first
    | (refine bind_noFuel _ _ (index_noFuel _ _) ?_
       intro a _
       simp)
    | simp

/-! ### Lemmas for the address, error and loop claims -/

theorem xor_pair (x0 x1 m0 m1 : Nat) :
    _xor [x0, x1] [m0, m1] = .ret [x0 ^^^ m0, x1 ^^^ m1] := by
  simp [_xor, xorLoop, Run.bind]

theorem xor_quad (x0 x1 x2 x3 m0 m1 m2 m3 : Nat) :
    _xor [x0, x1, x2, x3] [m0, m1, m2, m3]
      = .ret [x0 ^^^ m0, x1 ^^^ m1, x2 ^^^ m2, x3 ^^^ m3] := by
  simp [_xor, xorLoop, Run.bind]

/-- The XOR-MAPPED-ADDRESS decoder on an 8-byte value, under a 20-byte header with cookie
`m0 m1 m2 m3`: the family is 4 whatever the selector, port and address are XORed with the
cookie. -/
theorem xorMapped_eight (f0 f1 x0 x1 y0 y1 y2 y3 : Nat) (vs : List Nat)
    (pre tid hs : List Nat) (m0 m1 m2 m3 : Nat) (hpre : pre.length = 4)
    (htid : tid.length = 12) :
    xorMappedAddressDecoding ⟨[f0, f1, x0, x1, y0, y1, y2, y3], vs⟩
        ⟨pre ++ ([m0, m1, m2, m3] ++ tid), hs⟩
      = .ret { Family := 4,
               Address := renderAddress [y0 ^^^ m0, y1 ^^^ m1, y2 ^^^ m2, y3 ^^^ m3],
               Port := Itoa (((x0 ^^^ m0) * 256 + (x1 ^^^ m1)) % 65536),
               Packet := "XOR-MAPPED-ADDRESS" } := by
  have hf : (if (0 : Int) = 2 then (6 : Int) else 4) = 4 := by decide
  have hm : Slice.slice ⟨pre ++ ([m0, m1, m2, m3] ++ tid), hs⟩ 4 8
      = .ret ⟨[m0, m1, m2, m3], tid ++ hs⟩ :=
    slice_value pre [m0, m1, m2, m3] tid hs 4 8 (by rw [hpre]; rfl) (by rw [hpre]; rfl)
  have ht : Slice.slice ⟨pre ++ ([m0, m1, m2, m3] ++ tid), hs⟩ 8 20
      = .ret ⟨tid, hs⟩ := by
    have := slice_value (pre ++ [m0, m1, m2, m3]) tid [] hs 8 20
      (by simp [hpre]) (by simp [hpre, htid])
    simpa using this
  have hxp : Slice.slice ⟨[f0, f1, x0, x1, y0, y1, y2, y3], vs⟩ 2 4
      = .ret ⟨[x0, x1], [y0, y1, y2, y3] ++ vs⟩ :=
    slice_value [f0, f1] [x0, x1] [y0, y1, y2, y3] vs 2 4 rfl rfl
  have hxa : Slice.slice ⟨[f0, f1, x0, x1, y0, y1, y2, y3], vs⟩ 4 8
      = .ret ⟨[y0, y1, y2, y3], vs⟩ := by
    have := slice_value [f0, f1, x0, x1] [y0, y1, y2, y3] [] vs 4 8 rfl rfl
    simpa using this
  have hm2 : Slice.slice ⟨[m0, m1, m2, m3], tid ++ hs⟩ 0 2
      = .ret ⟨[m0, m1], [m2, m3] ++ (tid ++ hs)⟩ := by
    have := slice_value [] [m0, m1] [m2, m3] (tid ++ hs) 0 2 rfl rfl
    simpa using this
  simp only [xorMappedAddressDecoding, readInt16ByValue, Slice.sliceTo, hf, if_true, hm, ht,
    hxp, hxa, hm2, Run.ret_bind, xor_pair, xor_quad, Uint16, Run.pure_eq]

/-- The XOR-MAPPED-ADDRESS decoder never reports family 6: its `family` variable is still 0
when it is tested. -/
theorem xorMapped_family (v hdr : Slice) (body : Body)
    (h : xorMappedAddressDecoding v hdr = .ret body) : body.Family = 4 := by
  have hf : (if (0 : Int) = 2 then (6 : Int) else 4) = 4 := by decide
  by_cases hc : 20 ≤ hdr.cap ∧ 8 ≤ v.cap
  · obtain ⟨magic, hm, hml, hmc⟩ := slice_ok hdr 4 8 (by omega)
    obtain ⟨tid, ht, -, -⟩ := slice_ok hdr 8 20 (by omega)
    obtain ⟨xport, hxp, hxpl, -⟩ := slice_ok v 2 4 (by omega)
    obtain ⟨xaddress, hxa, hxal, -⟩ := slice_ok v 4 8 (by omega)
    obtain ⟨magic2, hm2, hm2l, -⟩ := slice_ok magic 0 2 (by omega)
    obtain ⟨port, hp, hpl⟩ := xor_same_length xport.data magic2.data (by omega)
    obtain ⟨address, ha, -⟩ := xor_same_length xaddress.data magic.data (by omega)
    obtain ⟨n, hn⟩ := Uint16_two port (by omega)
    simp only [xorMappedAddressDecoding, readInt16ByValue, Slice.sliceTo, hm, ht, hxp, hxa, hm2,
      hp, ha, hn, Run.ret_bind, Run.pure_eq, hf, if_true, Run.ret.injEq] at h
    rw [← h]
  · rw [xorMapped_fail v hdr hc] at h
    simp at h

/-- Masking a 16-bit pattern with `METHOD_MASK`. -/
theorem and16_mask (x : Nat) (hx : x < 65536) :
    and16 (int16 (x : Int)) packet.METHOD_MASK = ((x &&& 0x0110 : Nat) : Int) := by
  have hb : bits16 packet.METHOD_MASK = 0x0110 := by decide
  have hle : x &&& 0x0110 ≤ 0x0110 := Nat.and_le_right
  unfold and16
  rw [bits16_int16 x hx, hb]
  exact int16_small _ (by omega)

/-- Go `%` keeps the sign of the dividend. -/
theorem tmod_four_nonpos (a : Int) (h : a < 0) : Int.tmod a 4 ≤ 0 := by
  match a, h with
  | Int.negSucc m, _ =>
    show -((Nat.succ m % 4 : Nat) : Int) ≤ 0
    omega

theorem paddedLength_eq (x : Int) :
    paddedLength x = if Int.tmod x 4 > 0 then int16 (x + (4 - Int.tmod x 4)) else x := rfl

/-- Up to 32764 the padded length is the one of the specification. -/
theorem paddedLength_small (L : Nat) (hL : L ≤ 32764) :
    paddedLength (int16 (L : Int)) = ((specPaddedLength L : Nat) : Int) := by
  rw [int16_small L (by omega)]
  exact pad_length L hL

/-- From 32765 on the padded length is negative: the sum wraps, or the declared length
itself is read as a negative `int16`. -/
theorem paddedLength_large (L : Nat) (h1 : 32765 ≤ L) (h2 : L < 65536) :
    paddedLength (int16 (L : Int)) < 0 ∧ -32768 ≤ paddedLength (int16 (L : Int)) := by
  unfold paddedLength
  by_cases hs : L < 32768
  · rw [int16_small L hs, Int.tmod_eq_emod (by omega) (by omega)]
    simp only []
    rw [if_pos (by omega)]
    unfold int16
    omega
  · have hneg : int16 (L : Int) < 0 := by unfold int16; omega
    have hlow : -32768 ≤ int16 (L : Int) := by unfold int16; omega
    have := tmod_four_nonpos _ hneg
    simp only []
    rw [if_neg (by omega)]
    exact ⟨hneg, hlow⟩

/-- A positive padded length is a multiple of 4, hence at least 4. -/
theorem paddedLength_pos (x : Int) (h : 0 < paddedLength x) : 4 ≤ paddedLength x := by
  rw [paddedLength_eq] at h ⊢
  by_cases hx : 0 ≤ x
  · rw [Int.tmod_eq_emod hx (by omega)] at h ⊢
    unfold int16 at h ⊢
    split_ifs at h ⊢ <;> omega
  · have := tmod_four_nonpos x (by omega)
    rw [if_neg (by omega)] at h ⊢
    omega

/-- One iteration of the loop of `decodeAttrs`: the stop test and the bounds of the value
slice use `paddedLength` of the `int16` read from the length field. -/
theorem decodeAttrsLoop_paddedLength (buffer hdr : Slice) (fuel : Nat) (buf : Reader)
    (offset : Int) (attrs : List Attrs) :
    ∃ k : Slice → Run (List Attrs × Option String),
      decodeAttrsLoop buffer hdr (fuel + 1) buf offset attrs
        = if offset < buf.size then
            if paddedLength (readInt16 (readInt16 buf 0).2 0).1 = 0
                ∨ paddedLength (readInt16 (readInt16 buf 0).2 0).1 + (offset + 2 + 2) > buf.size
            then .ret (attrs, none)
            else
              (buffer.slice (offset + 2 + 2)
                (offset + 2 + 2 + paddedLength (readInt16 (readInt16 buf 0).2 0).1)).bind k
          else .ret (attrs, none) := by
  have h := decodeAttrsLoop.eq_2 buffer hdr buf offset attrs fuel
  simp only [readInt16_size, ← paddedLength_eq] at h
  exact ⟨_, h⟩

/-- A first attribute whose declared length is 32765 or more: the value slice has a negative
length and panics, whatever follows the attribute header. -/
theorem decodeAttrs_large_length (t0 t1 l0 l1 : Nat) (v sp : List Nat) (hdr : Slice)
    (h0 : l0 < 256) (h1 : l1 < 256) (hL : 32765 ≤ l0 * 256 + l1) :
    decodeAttrs ⟨t0 :: t1 :: l0 :: l1 :: v, sp⟩ hdr = .panic .sliceBounds := by
  obtain ⟨hn, -⟩ := paddedLength_large (l0 * 256 + l1) hL (by omega)
  unfold paddedLength at hn
  simp only [] at hn
  have c1 : (0 : Int) < ((t0 :: t1 :: l0 :: l1 :: v).length : Int) := by
    simp only [List.length_cons]; omega
  unfold decodeAttrs
  rw [decodeAttrsLoop]
  simp only [NewReader, readInt16_cons]
  rw [if_pos c1, if_neg (by simp only [List.length_cons]; omega), slice_fail _ _ _ (by omega)]
  rfl

/-- Clean stop for a declared length up to 32764: with length 0, or with fewer bytes left
than the padded length, the loop stops and returns no attribute and no error. -/
theorem decodeAttrs_clean_stop (t0 t1 : Nat) (L : Nat) (rest sp : List Nat) (hdr : Slice)
    (hL : L ≤ 32764) (hstop : L = 0 ∨ rest.length < specPaddedLength L) :
    decodeAttrs ⟨t0 :: t1 :: L / 256 :: L % 256 :: rest, sp⟩ hdr = .ret ([], none) := by
  have eL : int16 ((L / 256 * 256 + L % 256 : Nat) : Int) = (L : Int) := by
    unfold int16; omega
  have c1 : (0 : Int) < ((t0 :: t1 :: L / 256 :: L % 256 :: rest).length : Int) := by
    simp only [List.length_cons]; omega
  have hp := pad_length L hL
  have hs : specPaddedLength L = (L + 3) / 4 * 4 := rfl
  unfold decodeAttrs
  rw [decodeAttrsLoop]
  simp only [NewReader, readInt16_cons, eL, hp]
  rw [if_pos c1, if_pos (by simp only [List.length_cons]; omega)]

theorem xorLoop_longer : ∀ a b : List Nat, b.length < a.length →
    xorLoop a b = .panic .indexRange
  | [], _, h => by simp at h
  | _ :: _, [], _ => rfl
  | x :: a, y :: b, h => by
    rw [xorLoop, xorLoop_longer a b (by simpa using h)]
    rfl

/-- The number of codes returned by `unknownAttributesDecoding` on `n` bytes is `(n + 1) / 2`. -/
theorem unknownAttributes_length : ∀ l : List Nat,
    (unknownAttributesDecoding l).length = (l.length + 1) / 2
  | [] => by simp [unknownAttributesDecoding]
  | [_] => by simp [unknownAttributesDecoding]
  | b0 :: b1 :: rest => by
    rw [unknownAttributesDecoding, List.length_cons, unknownAttributes_length rest]
    simp only [List.length_cons]
    omega

theorem readInt16_single (b s : Nat) (cur : Int) :
    readInt16 ⟨[b], s⟩ cur = (cur, ⟨[], s⟩) := by
  simp [readInt16, Reader.readFull]

/-- The reader loop of `unknownAttributesDecoding` ends within `len + 1` iterations and returns
the codes of `unknownAttributesDecoding`. -/
theorem unknownAttributesLoop_eq : ∀ (fuel : Nat) (l : List Nat) (s : Nat) (data : List Int),
    l.length < fuel →
    unknownAttributesLoop fuel ⟨l, s⟩ data = .ret (data ++ unknownAttributesDecoding l)
  | 0, _, _, _, h => by omega
  | fuel + 1, [], s, data, _ => by
    simp [unknownAttributesLoop, unknownAttributesDecoding]
  | fuel + 1, [b], s, data, h => by
    have hf : 0 < fuel := by simpa using h
    rw [unknownAttributesLoop]
    simp only [List.length_singleton, gt_iff_lt, Nat.lt_one_iff, if_true, readInt16_single,
      Nat.zero_lt_one]
    rw [unknownAttributesLoop_eq fuel [] s _ hf]
    simp [unknownAttributesDecoding]
  | fuel + 1, b0 :: b1 :: rest, s, data, h => by
    have hf : rest.length < fuel := by
      simp only [List.length_cons] at h; omega
    have hpos : (b0 :: b1 :: rest).length > 0 := by simp
    rw [unknownAttributesLoop]
    simp only [hpos, if_true, readInt16_cons]
    rw [unknownAttributesLoop_eq fuel rest s _ hf]
    simp [unknownAttributesDecoding, beUint]

theorem bind_eq_ret {α β : Type} {x : Run α} {f : α → Run β} {b : β}
    (h : x.bind f = .ret b) : ∃ a, x = .ret a ∧ f a = .ret b := by
  cases x with
  | ret a => exact ⟨a, rfl, h⟩
  | panic e => simp [Run.bind] at h

/-- Every completed iteration of the loop of `decodeAttrs` consumes at least 8 bytes: if the
loop, entered with `offset` within the buffer, returns without error, then 8 bytes per
added attribute fit between `offset` and the end. -/
theorem loop_bound (buffer hdr : Slice) :
    ∀ (fuel : Nat) (buf : Reader) (offset : Int) (attrs res : List Attrs),
      offset ≤ buf.size →
      decodeAttrsLoop buffer hdr fuel buf offset attrs = .ret (res, none) →
      8 * (res.length : Int) + offset ≤ 8 * (attrs.length : Int) + buf.size := by
  intro fuel
  induction fuel with
  | zero =>
    intro buf offset attrs res _ h
    simp [decodeAttrsLoop] at h
  | succ fuel ih =>
    intro buf offset attrs res hle h
    rw [decodeAttrsLoop] at h
    simp only [] at h
    by_cases hlt : offset < (buf.size : Int)
    · rw [if_pos hlt] at h
      simp only [readInt16_size, ← paddedLength_eq] at h
      by_cases hstop : paddedLength (readInt16 (readInt16 buf 0).2 0).1 = 0
          ∨ paddedLength (readInt16 (readInt16 buf 0).2 0).1 + (offset + 2 + 2) > (buf.size : Int)
      · rw [if_pos hstop] at h
        simp only [Run.ret.injEq, Prod.mk.injEq, and_true] at h
        subst h
        omega
      · rw [if_neg hstop] at h
        obtain ⟨value, hv, hk⟩ := bind_eq_ret h
        have hbd := slice_ret_bounds _ _ _ _ hv
        have hP := paddedLength_pos (readInt16 (readInt16 buf 0).2 0).1 (by omega)
        have key : ∀ (r : Reader) (x : Attrs), r.size = buf.size →
            decodeAttrsLoop buffer hdr fuel r
              (offset + 2 + 2 + paddedLength (readInt16 (readInt16 buf 0).2 0).1)
              (attrs ++ [x]) = .ret (res, none) →
            8 * (res.length : Int) + offset ≤ 8 * (attrs.length : Int) + buf.size := by
          intro r x hr hloop
          have := ih r _ _ res (by rw [hr]; omega) hloop
          rw [hr, List.length_append] at this
          simp only [List.length_singleton, Nat.cast_add, Nat.cast_one] at this
          omega
        split_ifs at hk
        · obtain ⟨body, -, hk2⟩ := bind_eq_ret hk
          exact key _ _ (by rw [discard_size, readInt16_size, readInt16_size]) hk2
        · obtain ⟨body, -, hk2⟩ := bind_eq_ret hk
          exact key _ _ (by rw [discard_size, readInt16_size, readInt16_size]) hk2
        · obtain ⟨e, -, hk2⟩ := bind_eq_ret hk
          simp at hk2
        · exact key _ _ (by rw [discard_size, readInt16_size, readInt16_size]) hk
        · exact key _ _ (by rw [discard_size, readInt16_size, readInt16_size]) hk
    · rw [if_neg hlt] at h
      simp only [Run.ret.injEq, Prod.mk.injEq, and_true] at h
      subst h
      omega

/-- Under the guard of the loop a value of non-negative length is sliced within `len`. -/
theorem slice_guarded (buffer : Slice) (offset length : Int) (h0 : 0 ≤ offset)
    (hl : 0 ≤ length) (hg : ¬ (length = 0 ∨ length + offset > (buffer.data.length : Int))) :
    ∃ value, buffer.slice offset (offset + length) = .ret value
      ∧ (value.data.length : Int) = length := by
  obtain ⟨r, hr, hrl, -⟩ := slice_ok buffer offset (offset + length) (by
    simp only [Slice.cap]; omega)
  exact ⟨r, hr, by omega⟩

/-! ### The entries of a decoded sequence -/

theorem toDigitsCore_ne_nil (b : Nat) :
    ∀ (fuel n : Nat) (ds : List Char), ds ≠ [] → Nat.toDigitsCore b fuel n ds ≠ []
  | 0, _, _, h => by simpa [Nat.toDigitsCore] using h
  | fuel + 1, n, ds, _ => by
    rw [Nat.toDigitsCore]
    split_ifs
    · simp
    · exact toDigitsCore_ne_nil b fuel _ _ (by simp)

/-- The decimal text of a number is never empty. -/
theorem Itoa_ne_empty (n : Nat) : Itoa n ≠ "" := by
  unfold Itoa Nat.repr Nat.toDigits
  intro h
  have h2 : Nat.toDigitsCore 10 (n + 1) n [] ≠ [] := by
    rw [Nat.toDigitsCore]
    split_ifs
    · simp
    · exact toDigitsCore_ne_nil 10 n _ _ (by simp)
  apply h2
  have := congrArg String.data h
  simpa using this

theorem seq_eq_ret {α β : Type} {x : Run α} {f : α → Run β} {b : β}
    (h : (x >>= f) = .ret b) : ∃ a, x = .ret a ∧ f a = .ret b :=
  bind_eq_ret h

/-- A body returned by `mappedAddressDecoding` is named MAPPED-ADDRESS and has a port. -/
theorem mapped_entry (v : Slice) (body : Body) (h : mappedAddressDecoding v = .ret body) :
    body.Packet = "MAPPED-ADDRESS" ∧ body.Port ≠ "" := by
  unfold mappedAddressDecoding at h
  obtain ⟨family, -, h⟩ := seq_eq_ret h
  obtain ⟨port, -, h⟩ := seq_eq_ret h
  obtain ⟨address, -, h⟩ := seq_eq_ret h
  simp only [Run.pure_eq, Run.ret.injEq] at h
  rw [← h]
  exact ⟨rfl, Itoa_ne_empty _⟩

/-- A body returned by `xorMappedAddressDecoding` is named XOR-MAPPED-ADDRESS and has a
port. -/
theorem xorMapped_entry (v hdr : Slice) (body : Body)
    (h : xorMappedAddressDecoding v hdr = .ret body) :
    body.Packet = "XOR-MAPPED-ADDRESS" ∧ body.Port ≠ "" := by
  have hf : (if (0 : Int) = 2 then (6 : Int) else 4) = 4 := by decide
  by_cases hc : 20 ≤ hdr.cap ∧ 8 ≤ v.cap
  · obtain ⟨magic, hm, hml, hmc⟩ := slice_ok hdr 4 8 (by omega)
    obtain ⟨tid, ht, -, -⟩ := slice_ok hdr 8 20 (by omega)
    obtain ⟨xport, hxp, hxpl, -⟩ := slice_ok v 2 4 (by omega)
    obtain ⟨xaddress, hxa, hxal, -⟩ := slice_ok v 4 8 (by omega)
    obtain ⟨magic2, hm2, hm2l, -⟩ := slice_ok magic 0 2 (by omega)
    obtain ⟨port, hp, hpl⟩ := xor_same_length xport.data magic2.data (by omega)
    obtain ⟨address, ha, -⟩ := xor_same_length xaddress.data magic.data (by omega)
    obtain ⟨n, hn⟩ := Uint16_two port (by omega)
    simp only [xorMappedAddressDecoding, readInt16ByValue, Slice.sliceTo, hm, ht, hxp, hxa, hm2,
      hp, ha, hn, Run.ret_bind, Run.pure_eq, hf, if_true, Run.ret.injEq] at h
    rw [← h]
    exact ⟨rfl, Itoa_ne_empty _⟩
  · rw [xorMapped_fail v hdr hc] at h
    simp at h

/-- What the loop of `decodeAttrs` appends: an entry made by one of the two address decoders
(its port is then a non-empty decimal), or an entry with the zero body. -/
theorem loop_entries (buffer hdr : Slice) :
    ∀ (fuel : Nat) (buf : Reader) (offset : Int) (attrs res : List Attrs),
      (∀ a ∈ attrs, a.Data = Body.zero
        ∨ ((a.Data.Packet = "MAPPED-ADDRESS" ∨ a.Data.Packet = "XOR-MAPPED-ADDRESS")
            ∧ a.Data.Port ≠ "")) →
      decodeAttrsLoop buffer hdr fuel buf offset attrs = .ret (res, none) →
      ∀ a ∈ res, a.Data = Body.zero
        ∨ ((a.Data.Packet = "MAPPED-ADDRESS" ∨ a.Data.Packet = "XOR-MAPPED-ADDRESS")
            ∧ a.Data.Port ≠ "") := by
  intro fuel
  induction fuel with
  | zero =>
    intro buf offset attrs res _ h
    simp [decodeAttrsLoop] at h
  | succ fuel ih =>
    intro buf offset attrs res hinv h
    rw [decodeAttrsLoop] at h
    simp only [] at h
    by_cases hlt : offset < (buf.size : Int)
    · rw [if_pos hlt] at h
      simp only [readInt16_size, ← paddedLength_eq] at h
      by_cases hstop : paddedLength (readInt16 (readInt16 buf 0).2 0).1 = 0
          ∨ paddedLength (readInt16 (readInt16 buf 0).2 0).1 + (offset + 2 + 2) > (buf.size : Int)
      · rw [if_pos hstop] at h
        simp only [Run.ret.injEq, Prod.mk.injEq, and_true] at h
        subst h
        exact hinv
      · rw [if_neg hstop] at h
        obtain ⟨value, hv, hk⟩ := bind_eq_ret h
        have key : ∀ (r : Reader) (o : Int) (x : Attrs),
            (x.Data = Body.zero
              ∨ ((x.Data.Packet = "MAPPED-ADDRESS" ∨ x.Data.Packet = "XOR-MAPPED-ADDRESS")
                  ∧ x.Data.Port ≠ "")) →
            decodeAttrsLoop buffer hdr fuel r o (attrs ++ [x]) = .ret (res, none) →
            ∀ a ∈ res, a.Data = Body.zero
              ∨ ((a.Data.Packet = "MAPPED-ADDRESS" ∨ a.Data.Packet = "XOR-MAPPED-ADDRESS")
                  ∧ a.Data.Port ≠ "") := by
          intro r o x hx hloop
          refine ih r o _ res ?_ hloop
          intro a ha
          rcases List.mem_append.1 ha with ha | ha
          · exact hinv a ha
          · rw [List.mem_singleton.1 ha]; exact hx
        split_ifs at hk
        · obtain ⟨body, hb, hk2⟩ := bind_eq_ret hk
          have := mapped_entry _ _ hb
          exact key _ _ _ (Or.inr ⟨Or.inl this.1, this.2⟩) hk2
        · obtain ⟨body, hb, hk2⟩ := bind_eq_ret hk
          have := xorMapped_entry _ _ _ hb
          exact key _ _ _ (Or.inr ⟨Or.inr this.1, this.2⟩) hk2
        · obtain ⟨e, -, hk2⟩ := bind_eq_ret hk
          simp at hk2
        · exact key _ _ _ (Or.inl rfl) hk
        · exact key _ _ _ (Or.inl rfl) hk
    · rw [if_neg hlt] at h
      simp only [Run.ret.injEq, Prod.mk.injEq, and_true] at h
      subst h
      exact hinv

/-- Every entry of a list returned by `decodeAttrs` was made by one of the two address
decoders, or has the zero body. -/
theorem decodeAttrs_entries (buffer hdr : Slice) (res : List Attrs)
    (h : decodeAttrs buffer hdr = .ret (res, none)) :
    ∀ a ∈ res, a.Data = Body.zero
      ∨ ((a.Data.Packet = "MAPPED-ADDRESS" ∨ a.Data.Packet = "XOR-MAPPED-ADDRESS")
          ∧ a.Data.Port ≠ "") :=
  loop_entries buffer hdr _ _ _ [] res (by simp) h

/-- A successful `Decode` returns the list of `decodeAttrs`, which is not empty, with the
address and port of its entry 0. -/
theorem Decode_ret (buffer : Slice) (resp : Response)
    (h : Decode buffer = .ret (resp, none)) :
    ∃ bh ba first rest, decodeAttrs ba bh = .ret (first :: rest, none)
      ∧ resp.Attributes = first :: rest ∧ resp.Address = first.Data.Address
      ∧ resp.Port = first.Data.Port := by
  unfold Decode at h
  simp only [packetTest_none, decodeHeader_nil_error, ne_eq, not_true_eq_false, if_false] at h
  obtain ⟨bh, -, h⟩ := bind_eq_ret h
  obtain ⟨ba, -, h⟩ := bind_eq_ret h
  obtain ⟨r, hr, h⟩ := bind_eq_ret h
  obtain ⟨attrs, err⟩ := r
  cases err with
  | some e => simp at h
  | none =>
    cases attrs with
    | nil => simp [index, Run.bind] at h
    | cons first rest =>
      simp [index, Run.bind] at h
      exact ⟨bh, ba, first, rest, hr, by rw [← h], by rw [← h], by rw [← h]⟩

theorem firstAddressBearing_cons_pos (first : Attrs) (rest : List Attrs)
    (h : first.Data.Packet = "MAPPED-ADDRESS" ∨ first.Data.Packet = "XOR-MAPPED-ADDRESS") :
    firstAddressBearing (first :: rest) = some first := by
  simp [firstAddressBearing, List.find?, h]

theorem firstAddressBearing_some (attrs : List Attrs) (a : Attrs)
    (h : firstAddressBearing attrs = some a) :
    a ∈ attrs ∧ (a.Data.Packet = "MAPPED-ADDRESS" ∨ a.Data.Packet = "XOR-MAPPED-ADDRESS") := by
  unfold firstAddressBearing at h
  have h1 := List.find?_some h
  have h2 := List.mem_of_find?_eq_some h
  exact ⟨h2, by simpa using h1⟩

/-! ## The claims -/

/-! ## C1 -/

/-- C1: a 20-byte header whose first byte has its two top bits clear, followed by one
MAPPED-ADDRESS attribute (family 1, port `p`, address `a.b.c.d`) and any number `k` of zero
bytes, decodes without error to a Response with exactly one attribute, of family 4, whose
address is the dotted decimal text of the four octets and whose port is the decimal text of
`p`; `Response.Address` and `Response.Port` carry the same texts. -/
theorem Decode_mapped_address (h sp : List Nat) (p a b c d k : Nat)
    (hlen : h.length = 20) (_htop : ∀ x, h.head? = some x → x < 64)
    (hp : p < 65536) (_ha : a < 256) (_hb : b < 256) (_hc : c < 256) (_hd : d < 256) :
    Decode ⟨h ++ [0, 1, 0, 8, 0, 1, p / 256, p % 256, a, b, c, d] ++ List.replicate k 0, sp⟩
      = .ret ({ Header := (decodeHeader ⟨h, []⟩).1,
                Attributes := [{ PacketType := 1,
                                 Data := { Family := 4,
                                           Address := Nat.repr a ++ "." ++ Nat.repr b ++ "."
                                                        ++ Nat.repr c ++ "." ++ Nat.repr d,
                                           Port := Nat.repr p,
                                           Packet := "MAPPED-ADDRESS" } }],
                Address := Nat.repr a ++ "." ++ Nat.repr b ++ "." ++ Nat.repr c ++ "."
                             ++ Nat.repr d,
                Port := Nat.repr p }, none) := by
  rw [List.append_assoc]
  unfold Decode
  simp only [packetTest_none, decodeHeader_nil_error, ne_eq, not_true_eq_false, if_false]
  rw [slice_header h _ sp _ (by rw [hlen]; rfl), slice_attrs h _ sp _ (by rw [hlen]; rfl)]
  simp only [Run.bind, decodeAttrs_mapped_zeros _ _ _ _ _ _ _ _ hp]
  simp [index, decodeHeader_data h]

/-- C1 at a concrete message: port 8080, address 192.168.1.2, three trailing zero bytes. -/
theorem Decode_mapped_address_witness :
    Decode ⟨[0, 1, 0, 12, 0x21, 0x12, 0xA4, 0x42, 0, 0, 0, 0, 0, 0, 0, 0, 1, 2, 3, 4]
              ++ [0, 1, 0, 8, 0, 1, 8080 / 256, 8080 % 256, 192, 168, 1, 2]
              ++ List.replicate 3 0, []⟩
      = .ret ({ Header := { Method := 0, Length := 12, MagicCookie := 0x2112A442, Tid := 0x010203 },
                Attributes := [{ PacketType := 1,
                                 Data := { Family := 4, Address := "192.168.1.2", Port := "8080",
                                           Packet := "MAPPED-ADDRESS" } }],
                Address := "192.168.1.2", Port := "8080" }, none) :=
  Decode_mapped_address _ [] 8080 192 168 1 2 3 (by decide) (by decide) (by decide) (by decide)
    (by decide) (by decide) (by decide)

/-! ## C2 -/

/-- C2 fails on the code: a MAPPED-ADDRESS attribute followed by an XOR-MAPPED-ADDRESS
attribute (both complete, both for 192.168.1.2:8080) yields one entry, not two, although
the second attribute alone decodes to its entry: after the first value the reader has
skipped `offset` bytes instead of the value length and stands 4 bytes too far. -/
theorem decodeAttrs_mapped_then_xor :
    decodeAttrs ⟨[0, 1, 0, 8, 0, 1, 0x1F, 0x90, 192, 168, 1, 2,
                  0, 0x20, 0, 8, 0, 1, 0x3E, 0x82, 0xE1, 0xBA, 0xA5, 0x40], []⟩
        ⟨sampleHeader, []⟩
      = .ret ([{ PacketType := 1,
                 Data := { Family := 4, Address := "192.168.1.2", Port := "8080",
                           Packet := "MAPPED-ADDRESS" } }], none)
    ∧ decodeAttrs ⟨[0, 0x20, 0, 8, 0, 1, 0x3E, 0x82, 0xE1, 0xBA, 0xA5, 0x40], []⟩
        ⟨sampleHeader, []⟩
      = .ret ([{ PacketType := 32,
                 Data := { Family := 4, Address := "192.168.1.2", Port := "8080",
                           Packet := "XOR-MAPPED-ADDRESS" } }], none) := by
  decide

/-! ## C3 -/

/-- C3 fails as stated: on a SOFTWARE attribute followed by a MAPPED-ADDRESS attribute
`Decode` succeeds, the first address-bearing attribute of the result carries 10.11.12.13 and
port 8, and `Response.Address` and `Response.Port` are empty. -/
theorem Decode_software_then_mapped :
    (Decode ⟨sampleHeader ++ [0x80, 0x22, 0, 4, 115, 116, 117, 110,
                              0, 1, 0, 8, 0, 1, 0, 8, 10, 11, 12, 13], []⟩).bind
        (fun r => .ret (r.2, r.1.Address, r.1.Port,
          (firstAddressBearing r.1.Attributes).map fun a => (a.Data.Address, a.Data.Port)))
      = .ret (none, "", "", some ("10.11.12.13", "8")) := by
  decide

/-- C3 as amended: whenever `Decode` succeeds the decoded sequence is not empty and
`Response.Address` and `Response.Port` are the address and port of its first entry,
whatever the type of that entry. When the first entry was made by the MAPPED-ADDRESS or the
XOR-MAPPED-ADDRESS decoder it is the first address-bearing attribute; when it is of another
type, `Response.Address` and `Response.Port` are empty strings and the port differs from
that of the first address-bearing attribute, if there is one. -/
theorem Decode_address_of_first_attribute (buffer : Slice) (resp : Response)
    (h : Decode buffer = .ret (resp, none)) :
    ∃ first rest, resp.Attributes = first :: rest
      ∧ resp.Address = first.Data.Address ∧ resp.Port = first.Data.Port
      ∧ ((first.Data.Packet = "MAPPED-ADDRESS" ∨ first.Data.Packet = "XOR-MAPPED-ADDRESS") →
          firstAddressBearing resp.Attributes = some first)
      ∧ (¬ (first.Data.Packet = "MAPPED-ADDRESS" ∨ first.Data.Packet = "XOR-MAPPED-ADDRESS") →
          resp.Address = "" ∧ resp.Port = ""
            ∧ ∀ a, firstAddressBearing resp.Attributes = some a → a.Data.Port ≠ resp.Port) := by
  obtain ⟨bh, ba, first, rest, hd, hA, hAddr, hPort⟩ := Decode_ret buffer resp h
  have hent := decodeAttrs_entries ba bh _ hd
  refine ⟨first, rest, hA, hAddr, hPort, ?_, ?_⟩
  · intro hp
    rw [hA]
    exact firstAddressBearing_cons_pos first rest hp
  · intro hn
    have hz : first.Data = Body.zero := by
      rcases hent first (by simp) with hz | hz
      · exact hz
      · exact absurd hz.1 hn
    have hp0 : resp.Port = "" := by rw [hPort, hz]; rfl
    refine ⟨by rw [hAddr, hz]; rfl, hp0, ?_⟩
    intro a ha
    rw [hA] at ha
    obtain ⟨hmem, hpk⟩ := firstAddressBearing_some _ a ha
    rcases hent a hmem with hz2 | hz2
    · rw [hz2] at hpk
      exact absurd hpk (by decide)
    · rw [hp0]; exact hz2.2

/-- C3 as amended, at a message whose SOFTWARE attribute comes before a MAPPED-ADDRESS
attribute (192.168.1.2, port 8): the address and port of the Response are empty. -/
theorem Decode_address_of_first_attribute_witness :
    ∃ resp, Decode ⟨sampleHeader ++ [0x80, 0x22, 0, 4, 115, 116, 117, 110,
                                      0, 1, 0, 8, 0, 1, 0, 8, 192, 168, 1, 2], []⟩
              = .ret (resp, none)
      ∧ resp.Address = "" ∧ resp.Port = ""
      ∧ firstAddressBearing resp.Attributes
          = some { PacketType := 1,
                   Data := { Family := 4, Address := "192.168.1.2", Port := "8",
                             Packet := "MAPPED-ADDRESS" } }
      ∧ ∃ first rest, resp.Attributes = first :: rest
          ∧ resp.Address = first.Data.Address ∧ resp.Port = first.Data.Port
          ∧ ((first.Data.Packet = "MAPPED-ADDRESS" ∨ first.Data.Packet = "XOR-MAPPED-ADDRESS") →
              firstAddressBearing resp.Attributes = some first)
          ∧ (¬ (first.Data.Packet = "MAPPED-ADDRESS"
                  ∨ first.Data.Packet = "XOR-MAPPED-ADDRESS") →
              resp.Address = "" ∧ resp.Port = ""
                ∧ ∀ a, firstAddressBearing resp.Attributes = some a →
                    a.Data.Port ≠ resp.Port) :=
  ⟨{ Header := { Method := 256, Length := 24, MagicCookie := 0x2112A442, Tid := 0x010203 },
     Attributes := [{ PacketType := 0x22, Data := Body.zero },
                    { PacketType := 1,
                      Data := { Family := 4, Address := "192.168.1.2", Port := "8",
                                Packet := "MAPPED-ADDRESS" } }],
     Address := "", Port := "" },
   by decide, by decide, by decide, by decide,
   Decode_address_of_first_attribute
     ⟨sampleHeader ++ [0x80, 0x22, 0, 4, 115, 116, 117, 110,
                       0, 1, 0, 8, 0, 1, 0, 8, 192, 168, 1, 2], []⟩ _ (by decide)⟩

/-! ## C4 -/

/-- C4 fails on the code: on a complete ERROR-CODE attribute of declared length 32768 (the
value bytes are all present) neither `decodeAttrs` nor `Decode` returns an error: the
length is read as the `int16` -32768 and slicing the value panics. For declared lengths 8 to
32764 the claim holds, see `decodeAttrs_error_code` and `Decode_error_code`. -/
theorem Decode_error_code_length_32768 :
    decodeAttrs ⟨0x00 :: 0x09 :: 0x80 :: 0x00 :: List.replicate 32768 0, []⟩ ⟨sampleHeader, []⟩
      = .panic .sliceBounds
    ∧ Decode ⟨sampleHeader ++ (0x00 :: 0x09 :: 0x80 :: 0x00 :: List.replicate 32768 0), []⟩
      = .panic .sliceBounds :=
  ⟨decodeAttrs_negative_length _ _ _ _ _, Decode_negative_length _ _ _ _ _ rfl⟩

/-! ## C5 -/

/-- C5 fails on the code: on a header-only message of 20 bytes, and on a 20-byte header
followed by a truncated attribute, `Decode` returns neither a Response nor an error: the
attribute list is empty and `attrs[0]` is out of range. -/
theorem Decode_without_attributes (h sp : List Nat) (hlen : h.length = 20) :
    Decode ⟨h, sp⟩ = .panic .indexRange
      ∧ Decode ⟨h ++ [0, 1, 0, 8, 0, 1], sp⟩ = .panic .indexRange := by
  constructor
  · have e : (⟨h, sp⟩ : Slice) = ⟨h ++ [], sp⟩ := by simp
    rw [e, Decode_split h _ sp hlen, decodeAttrs_nil]
    rfl
  · rw [Decode_split h _ sp hlen, decodeAttrs_truncated]
    rfl

/-- C5 fails at the header-only binding request and at a header followed by six bytes. -/
theorem Decode_without_attributes_witness :
    Decode ⟨[0, 1, 0, 0, 0x21, 0x12, 0xA4, 0x42, 0, 0, 0, 0, 0, 0, 0, 0, 1, 2, 3, 4], []⟩
        = .panic .indexRange
      ∧ Decode ⟨[0, 1, 0, 0, 0x21, 0x12, 0xA4, 0x42, 0, 0, 0, 0, 0, 0, 0, 0, 1, 2, 3, 4]
                  ++ [0, 1, 0, 8, 0, 1], []⟩
        = .panic .indexRange :=
  Decode_without_attributes _ [] (by decide)

/-! ## C6 -/

/-- C6 fails on the code: on every buffer of fewer than 20 bytes `decodeHeader` returns a
nil error, and `Decode` returns nothing at all: one of its two slice expressions
`buffer[:20]`, `buffer[20:]` is out of range. -/
theorem Decode_short_buffer (buffer : Slice) (hlen : buffer.data.length < 20) :
    (decodeHeader buffer).2 = none ∧ Decode buffer = .panic .sliceBounds := by
  refine ⟨rfl, ?_⟩
  unfold Decode
  simp only [packetTest_none, decodeHeader_nil_error, ne_eq, not_true_eq_false, if_false]
  have h2 : buffer.sliceFrom packet.HEADER_LENGTH = .panic .sliceBounds := by
    simp only [Slice.sliceFrom, Slice.slice, Slice.len, packet.HEADER_LENGTH]
    rw [if_neg (by omega)]
  cases h1 : buffer.sliceTo packet.HEADER_LENGTH with
  | panic e =>
    simp only [Slice.sliceTo, Slice.slice] at h1
    split at h1
    · simp at h1
    · simp only [Run.panic.injEq] at h1
      subst h1
      rfl
  | ret bh => simp [Run.bind, h2]

/-- C6 fails at the buffer of 19 zero bytes. -/
theorem Decode_short_buffer_witness :
    (decodeHeader ⟨List.replicate 19 0, []⟩).2 = none
      ∧ Decode ⟨List.replicate 19 0, []⟩ = .panic .sliceBounds :=
  Decode_short_buffer ⟨List.replicate 19 0, []⟩ (by decide)

/-! ## C7 -/

/-- C7 fails on the code: `packetTest` returns no error on any buffer, and a message whose
first byte is 0xC0 (bits 7 and 6 set) passes `packetTest` and is decoded by `Decode`. -/
theorem packetTest_accepts_every_buffer :
    (∀ buffer : Slice, packetTest buffer = none)
    ∧ packetTest ⟨[0xC0, 1, 0, 12, 0x21, 0x12, 0xA4, 0x42, 0, 0, 0, 0, 0, 0, 0, 0, 1, 2, 3, 4,
                   0, 1, 0, 8, 0, 1, 0x1F, 0x90, 192, 168, 1, 2], []⟩ = none
    ∧ Decode ⟨[0xC0, 1, 0, 12, 0x21, 0x12, 0xA4, 0x42, 0, 0, 0, 0, 0, 0, 0, 0, 1, 2, 3, 4,
               0, 1, 0, 8, 0, 1, 0x1F, 0x90, 192, 168, 1, 2], []⟩
        = .ret ({ Header := { Method := 0, Length := 12, MagicCookie := 0x2112A442,
                              Tid := 0x010203 },
                  Attributes := [{ PacketType := 1,
                                   Data := { Family := 4, Address := "192.168.1.2",
                                             Port := "8080", Packet := "MAPPED-ADDRESS" } }],
                  Address := "192.168.1.2", Port := "8080" }, none) :=
  ⟨packetTest_none, by decide, by decide⟩

/-! ## C8 -/

/-- C8 fails as stated: a message whose bytes 4 to 7 are zero is decoded without error. -/
theorem Decode_accepts_zero_cookie :
    Decode ⟨[0, 1, 0, 12, 0, 0, 0, 0, 0, 0, 0, 0, 0, 0, 0, 0, 1, 2, 3, 4,
             0, 1, 0, 8, 0, 1, 0x1F, 0x90, 192, 168, 1, 2], []⟩
      = .ret ({ Header := { Method := 0, Length := 12, MagicCookie := 0, Tid := 0x010203 },
                Attributes := [{ PacketType := 1,
                                 Data := { Family := 4, Address := "192.168.1.2", Port := "8080",
                                           Packet := "MAPPED-ADDRESS" } }],
                Address := "192.168.1.2", Port := "8080" }, none) := by
  decide

/-- C8 as amended: `Decode` does not check the magic cookie. Replacing bytes 4 to 7 of a
buffer by any other four bytes changes neither whether `Decode` panics, nor whether it
returns an error, nor that error. -/
theorem Decode_ignores_magic_cookie (pre c c1 rest sp : List Nat) (hpre : pre.length = 4)
    (hc : c.length = 4) (hc1 : c1.length = 4) :
    errorOf (Decode ⟨pre ++ c1 ++ rest, sp⟩) = errorOf (Decode ⟨pre ++ c ++ rest, sp⟩) := by
  apply Decode_rel
  · apply sliceTo_rel
    simp [Slice.cap, hc, hc1]
  · exact sliceFrom_cookie pre c c1 rest sp hpre hc hc1

/-- C8 as amended, at a message with one MAPPED-ADDRESS attribute and the cookie zeroed. -/
theorem Decode_ignores_magic_cookie_witness :
    errorOf (Decode ⟨[0, 1, 0, 12] ++ [0, 0, 0, 0]
                ++ [0, 0, 0, 0, 0, 0, 0, 0, 1, 2, 3, 4,
                    0, 1, 0, 8, 0, 1, 0x1F, 0x90, 192, 168, 1, 2], []⟩)
      = errorOf (Decode ⟨[0, 1, 0, 12] ++ [0x21, 0x12, 0xA4, 0x42]
                ++ [0, 0, 0, 0, 0, 0, 0, 0, 1, 2, 3, 4,
                    0, 1, 0, 8, 0, 1, 0x1F, 0x90, 192, 168, 1, 2], []⟩) :=
  Decode_ignores_magic_cookie _ _ _ _ _ (by decide) (by decide) (by decide)

/-! ## C9 -/

/-- C9 fails as stated: at the transaction id 0x01020304 the decoded `Method` is 0, not 1,
and the decoded `Tid` is 0x010203, not 0x01020304. -/
theorem decodeHeader_preparePacket_differs :
    decodeHeader ⟨preparePacket 0x01020304, []⟩
        = ({ Method := 0, Length := 0, MagicCookie := 0x2112A442, Tid := 0x010203 }, none)
      ∧ (decodeHeader ⟨preparePacket 0x01020304, []⟩).1.Method ≠ 1
      ∧ (decodeHeader ⟨preparePacket 0x01020304, []⟩).1.Tid ≠ 0x01020304 := by
  decide

/-- C9 as amended: for every transaction id `t` below 2^32, `decodeHeader` on the message of
`preparePacket` returns no error, `Method` is the type field masked with `METHOD_MASK`
(0x0110, the class bits), that is 0, the entry `REQUEST` of the `METHOD` table, and
`Length` and `MagicCookie` are read back as written. -/
theorem decodeHeader_preparePacket_class (t : Nat) (ht : isTransactionId (t : Int))
    (sp : List Nat) :
    (decodeHeader ⟨preparePacket (t : Int), sp⟩).2 = none
      ∧ (decodeHeader ⟨preparePacket (t : Int), sp⟩).1.Method
          = and16 (int16 0x0001) packet.METHOD_MASK
      ∧ (decodeHeader ⟨preparePacket (t : Int), sp⟩).1.Method = packet.METHOD "REQUEST"
      ∧ (decodeHeader ⟨preparePacket (t : Int), sp⟩).1.Length = 0
      ∧ (decodeHeader ⟨preparePacket (t : Int), sp⟩).1.MagicCookie = packet.MAGIC_COOKIE := by
  have h1 : (0 : Int) = and16 (int16 0x0001) packet.METHOD_MASK := by decide
  have h2 : (0 : Int) = packet.METHOD "REQUEST" := by decide
  rw [decodeHeader_preparePacket_header t ht sp]
  exact ⟨rfl, h1, h2, rfl, rfl⟩

/-- C9 as amended, at the transaction id 0x01020304. -/
theorem decodeHeader_preparePacket_class_witness :
    (decodeHeader ⟨preparePacket ((0x01020304 : Nat) : Int), []⟩).2 = none
      ∧ (decodeHeader ⟨preparePacket ((0x01020304 : Nat) : Int), []⟩).1.Method
          = and16 (int16 0x0001) packet.METHOD_MASK
      ∧ (decodeHeader ⟨preparePacket ((0x01020304 : Nat) : Int), []⟩).1.Method
          = packet.METHOD "REQUEST"
      ∧ (decodeHeader ⟨preparePacket ((0x01020304 : Nat) : Int), []⟩).1.Length = 0
      ∧ (decodeHeader ⟨preparePacket ((0x01020304 : Nat) : Int), []⟩).1.MagicCookie
          = packet.MAGIC_COOKIE :=
  decodeHeader_preparePacket_class 0x01020304 (by decide) []

/-! ## C10 -/

/-- C10: for every transaction id `t` below 2^32 the message of `preparePacket` has 20
bytes: 0x00 0x01, 0x00 0x00, the magic cookie 0x21 0x12 0xA4 0x42, then eight zero bytes
and the four big-endian bytes of `t`; these last twelve bytes are the 96-bit big-endian
encoding of `t`. -/
theorem preparePacket_layout (t : Nat) (ht : isTransactionId (t : Int)) :
    (preparePacket (t : Int)).length = 20
      ∧ (preparePacket (t : Int)).take 8 = [0x00, 0x01, 0x00, 0x00, 0x21, 0x12, 0xA4, 0x42]
      ∧ (preparePacket (t : Int)).drop 8
          = List.replicate 8 0 ++ [t / 16777216, t / 65536 % 256, t / 256 % 256, t % 256]
      ∧ (preparePacket (t : Int)).drop 8 = beBytes 12 t
      ∧ beUint ((preparePacket (t : Int)).drop 8) = t := by
  have ht' : t < 4294967296 := by
    have := ht.2
    simp only [packet.MAX_TRANSACTIONID] at this
    omega
  rw [preparePacket_bytes t ht']
  refine ⟨rfl, rfl, rfl, ?_, ?_⟩
  · simp only [List.drop_succ_cons, List.drop_zero, beBytes, List.nil_append, List.cons_append,
      List.cons.injEq, and_true]
    omega
  · simp only [List.drop_succ_cons, List.drop_zero, beUint, List.foldl_cons, List.foldl_nil]
    omega

/-- C10 at the transaction id 0x01020304. -/
theorem preparePacket_layout_witness :
    (preparePacket ((0x01020304 : Nat) : Int)).length = 20
      ∧ (preparePacket ((0x01020304 : Nat) : Int)).take 8
          = [0x00, 0x01, 0x00, 0x00, 0x21, 0x12, 0xA4, 0x42]
      ∧ (preparePacket ((0x01020304 : Nat) : Int)).drop 8
          = List.replicate 8 0 ++ [0x01020304 / 16777216, 0x01020304 / 65536 % 256,
              0x01020304 / 256 % 256, 0x01020304 % 256]
      ∧ (preparePacket ((0x01020304 : Nat) : Int)).drop 8 = beBytes 12 0x01020304
      ∧ beUint ((preparePacket ((0x01020304 : Nat) : Int)).drop 8) = 0x01020304 :=
  preparePacket_layout 0x01020304 (by decide)

/-! ## C11 -/

/-- C11: under a 20-byte header (4 bytes, the cookie `m0 m1 m2 m3`, 12 bytes of transaction
id) the XOR-MAPPED-ADDRESS decoder, on the value with selector 1 whose port bytes `p0 p1`
and address bytes `a0 a1 a2 a3` are XORed with the cookie, returns the same family (4), the
same port text and the same address text as the MAPPED-ADDRESS decoder on the plain value. -/
theorem xorMapped_agrees_with_mapped (pre tid hs vs : List Nat)
    (m0 m1 m2 m3 p0 p1 a0 a1 a2 a3 : Nat) (hpre : pre.length = 4) (htid : tid.length = 12) :
    ∃ bx bm,
      xorMappedAddressDecoding
          ⟨[0x00, 0x01, p0 ^^^ m0, p1 ^^^ m1, a0 ^^^ m0, a1 ^^^ m1, a2 ^^^ m2, a3 ^^^ m3], vs⟩
          ⟨pre ++ [m0, m1, m2, m3] ++ tid, hs⟩ = .ret bx
      ∧ mappedAddressDecoding ⟨[0x00, 0x01, p0, p1, a0, a1, a2, a3], vs⟩ = .ret bm
      ∧ bx.Family = 4 ∧ bm.Family = 4 ∧ bx.Port = bm.Port ∧ bx.Address = bm.Address := by
  refine ⟨{ Family := 4,
            Address := renderAddress [(a0 ^^^ m0) ^^^ m0, (a1 ^^^ m1) ^^^ m1, (a2 ^^^ m2) ^^^ m2,
                         (a3 ^^^ m3) ^^^ m3],
            Port := Itoa ((((p0 ^^^ m0) ^^^ m0) * 256 + ((p1 ^^^ m1) ^^^ m1)) % 65536),
            Packet := "XOR-MAPPED-ADDRESS" },
          { Family := 4,
            Address := Nat.repr a0 ++ "." ++ Nat.repr a1 ++ "." ++ Nat.repr a2 ++ "."
                         ++ Nat.repr a3,
            Port := Nat.repr ((p0 * 256 + p1) % 65536), Packet := "MAPPED-ADDRESS" },
          ?_, mapped_ipv4 0 1 p0 p1 a0 a1 a2 a3 vs (by decide), rfl, rfl, ?_, ?_⟩
  · rw [List.append_assoc]
    exact xorMapped_eight _ _ _ _ _ _ _ _ vs pre tid hs m0 m1 m2 m3 hpre htid
  · simp only [Nat.xor_cancel_right, Itoa]
  · simp only [Nat.xor_cancel_right, renderAddress, joinParts, Itoa]
    simp [String.append_assoc]

/-- C11 at the cookie 0x2112A442, port 8080 and address 192.168.1.2. -/
theorem xorMapped_agrees_with_mapped_witness :
    ∃ bx bm,
      xorMappedAddressDecoding
          ⟨[0x00, 0x01, 0x1F ^^^ 0x21, 0x90 ^^^ 0x12, 192 ^^^ 0x21, 168 ^^^ 0x12, 1 ^^^ 0xA4,
            2 ^^^ 0x42], []⟩
          ⟨[1, 1, 0, 12] ++ [0x21, 0x12, 0xA4, 0x42] ++ [0, 0, 0, 0, 0, 0, 0, 0, 1, 2, 3, 4],
           []⟩ = .ret bx
      ∧ mappedAddressDecoding ⟨[0x00, 0x01, 0x1F, 0x90, 192, 168, 1, 2], []⟩ = .ret bm
      ∧ bx.Family = 4 ∧ bm.Family = 4 ∧ bx.Port = bm.Port ∧ bx.Address = bm.Address :=
  xorMapped_agrees_with_mapped _ _ [] [] 0x21 0x12 0xA4 0x42 0x1F 0x90 192 168 1 2
    (by decide) (by decide)

/-! ## C12 -/

/-- C12 fails on the code: on a 20-byte value with family selector 2 the XOR-MAPPED-ADDRESS
decoder reports family 4 and an address of four octets (bytes 4 to 7 XORed with the cookie),
while the MAPPED-ADDRESS decoder reads the selector of the same value as family 6. -/
theorem xorMapped_ipv6_selector :
    xorMappedAddressDecoding
        ⟨[0x00, 0x02, 0x3E, 0x82, 0x01, 0x13, 0xA9, 0xFA, 0, 0, 0, 0, 0, 0, 0, 0, 1, 2, 3, 5],
         []⟩ ⟨sampleHeader, []⟩
      = .ret { Family := 4, Address := "32.1.13.184", Port := "8080",
               Packet := "XOR-MAPPED-ADDRESS" }
    ∧ mappedAddressDecoding
        ⟨[0x00, 0x02, 0x3E, 0x82, 0x01, 0x13, 0xA9, 0xFA, 0, 0, 0, 0, 0, 0, 0, 0, 1, 2, 3, 5],
         []⟩
      = .ret { Family := 6, Address := "", Port := "16002", Packet := "MAPPED-ADDRESS" } := by
  decide

/-! ## C13 -/

/-- C13: on an 8-byte MAPPED-ADDRESS value whose family selector is not 2 the decoder
returns family 4, the decimal text of the big-endian 16-bit port, the four address octets in
dotted decimal and the packet name MAPPED-ADDRESS. -/
theorem mappedAddressDecoding_ipv4 (f0 f1 ph pl a b c d : Nat) (sp : List Nat)
    (hf0 : f0 < 256) (hf1 : f1 < 256) (hph : ph < 256) (hpl : pl < 256)
    (_ha : a < 256) (_hb : b < 256) (_hc : c < 256) (_hd : d < 256)
    (hf : f0 * 256 + f1 ≠ 2) :
    mappedAddressDecoding ⟨[f0, f1, ph, pl, a, b, c, d], sp⟩
      = .ret { Family := 4,
               Address := Nat.repr a ++ "." ++ Nat.repr b ++ "." ++ Nat.repr c ++ "."
                            ++ Nat.repr d,
               Port := Nat.repr (ph * 256 + pl), Packet := "MAPPED-ADDRESS" } := by
  have e : (ph * 256 + pl) % 65536 = ph * 256 + pl := by omega
  have := mapped_ipv4 f0 f1 ph pl a b c d sp (by omega)
  rw [e] at this
  exact this

/-- C13 at family 1, port 65535, address 255.255.255.255. -/
theorem mappedAddressDecoding_ipv4_witness :
    mappedAddressDecoding ⟨[0, 1, 255, 255, 255, 255, 255, 255], []⟩
      = .ret { Family := 4, Address := "255.255.255.255", Port := "65535",
               Packet := "MAPPED-ADDRESS" } :=
  mappedAddressDecoding_ipv4 0 1 255 255 255 255 255 255 [] (by decide) (by decide) (by decide)
    (by decide) (by decide) (by decide) (by decide) (by decide) (by decide)

/-! ## C14 -/

/-- C14 fails on the code: for class 4, number 38 and the reason "Stale Nonce" the error
message is "Error: code: ", the single character of code point 102438 (that is
`0x400 * 100 + 38`), ", reason: " and U+FFFD (the first four reason bytes read as one
out-of-range code point), not the message with code 438 and the reason phrase. -/
theorem errorCodeDecoding_stale_nonce :
    errorCodeDecoding ⟨[0, 0, 4, 38, 83, 116, 97, 108, 101, 32, 78, 111, 110, 99, 101, 0], []⟩
      = .ret ("Error: code: " ++ String.singleton (Char.ofNat 102438) ++ ", reason: "
                ++ String.singleton (Char.ofNat 0xFFFD))
    ∧ "Error: code: " ++ String.singleton (Char.ofNat 102438) ++ ", reason: "
          ++ String.singleton (Char.ofNat 0xFFFD)
        ≠ specErrorMessage 4 38 "Stale Nonce"
    ∧ specErrorMessage 4 38 "Stale Nonce" = "Error: code: 438, reason: Stale Nonce" := by
  decide

/-! ## C15 -/

/-- C15 fails as stated: for the type field 0x0001 the decoded `Method` is 0, while the
field masked with 0x3FFF is 1. -/
theorem decodeHeader_method_not_14_bits :
    (decodeHeader ⟨[0x00, 0x01, 0, 0, 0x21, 0x12, 0xA4, 0x42, 0, 0, 0, 0, 0, 0, 0, 0,
        1, 2, 3, 4], []⟩).1.Method = 0
    ∧ ((0x00 * 256 + 0x01 &&& 0x3FFF : Nat) : Int) = 1 := by
  decide

/-- C15 as amended: on every buffer of 20 bytes `decodeHeader` returns `Method` equal to the
big-endian 16-bit value of bytes 0 and 1 masked with `METHOD_MASK` = 0x0110: only the two
class bits are kept. -/
theorem decodeHeader_method_class (b0 b1 : Nat) (rest sp : List Nat)
    (h0 : b0 < 256) (h1 : b1 < 256) (_hlen : (b0 :: b1 :: rest).length = 20) :
    (decodeHeader ⟨b0 :: b1 :: rest, sp⟩).1.Method = ((b0 * 256 + b1 &&& 0x0110 : Nat) : Int) := by
  unfold decodeHeader
  simp only [NewReader, readInt16_cons]
  exact and16_mask _ (by omega)

/-- C15 as amended, at the type field 0x0101 of a binding success response. -/
theorem decodeHeader_method_class_witness :
    (decodeHeader ⟨0x01 :: 0x01 :: [0, 0, 0x21, 0x12, 0xA4, 0x42, 0, 0, 0, 0, 0, 0, 0, 0,
        1, 2, 3, 4], []⟩).1.Method = ((0x01 * 256 + 0x01 &&& 0x0110 : Nat) : Int) :=
  decodeHeader_method_class 0x01 0x01 _ [] (by decide) (by decide) (by decide)

/-! ## C16 -/

/-- C16 fails on the code: the padded length is computed on `int16`. For the declared
lengths 32765 and 32767 it is -32768 (the specification says 32768), and a declared length
from 32768 on is itself negative and left unpadded (65533 gives -3, 65535 gives -1); 32764
is the last length padded as specified (`paddedLength_small`, `paddedLength_large`). -/
theorem paddedLength_int16 :
    paddedLength (int16 32764) = 32764
    ∧ paddedLength (int16 32765) = -32768
    ∧ paddedLength (int16 32767) = -32768
    ∧ paddedLength (int16 32768) = -32768
    ∧ paddedLength (int16 65533) = -3
    ∧ paddedLength (int16 65535) = -1
    ∧ specPaddedLength 32765 = 32768 ∧ specPaddedLength 65535 = 65536 := by
  decide

/-! ## C17 -/

/-- C17 fails on the code: on an attribute header that declares 65535 bytes (or 32765) with
nothing behind it, `decodeAttrs` does not stop cleanly: the padded length is negative, the
guard lets it pass and slicing the value panics. Up to 32764 the stop is clean
(`decodeAttrs_clean_stop`). -/
theorem decodeAttrs_length_65535 :
    decodeAttrs ⟨[0x00, 0x01, 0xFF, 0xFF], []⟩ ⟨sampleHeader, []⟩ = .panic .sliceBounds
    ∧ decodeAttrs ⟨[0x00, 0x01, 0x7F, 0xFD], []⟩ ⟨sampleHeader, []⟩ = .panic .sliceBounds :=
  ⟨decodeAttrs_large_length _ _ _ _ _ _ _ (by decide) (by decide) (by decide),
   decodeAttrs_large_length _ _ _ _ _ _ _ (by decide) (by decide) (by decide)⟩

/-! ## C18 -/

/-- C18 fails on the code: on `n` bytes `unknownAttributesDecoding` returns `(n + 1) / 2`
codes, one more than `n / 2` when `n` is odd: the trailing byte makes the read fail and the
zero `ukattr` is appended (three bytes 00 01 02 give the codes 1 and 0). Codes are read as
`int16`: 0x8022 is returned as -32734. -/
theorem unknownAttributes_odd :
    (∀ l : List Nat, (unknownAttributesDecoding l).length = (l.length + 1) / 2)
    ∧ unknownAttributesDecoding [0x00, 0x01, 0x02] = [1, 0]
    ∧ unknownAttributesLoop 4 (NewReader ⟨[0x00, 0x01, 0x02], []⟩) [] = .ret [1, 0]
    ∧ unknownAttributesDecoding [0x80, 0x22] = [-32734] :=
  ⟨unknownAttributes_length, by decide, by decide, by decide⟩

/-! ## C19 -/

/-- C19 fails on the code: when the operands differ in length `_xor` panics with an index
out of range (after the swap the loop ranges over the longer operand and indexes the
shorter one). -/
theorem xor_length_mismatch (a b : List Nat) (h : a.length ≠ b.length) :
    _xor a b = .panic .indexRange := by
  unfold _xor
  split_ifs with hlt
  · exact xorLoop_longer b a hlt
  · exact xorLoop_longer a b (by omega)

/-- C19 fails at a 4-byte address XORed with a 2-byte key. -/
theorem xor_length_mismatch_witness :
    _xor [0xC0, 0xA8, 0x01, 0x02] [0x21, 0x12] = .panic .indexRange :=
  xor_length_mismatch _ _ (by decide)

/-! ## C20 -/

/-- C20: for every attribute buffer and header the loop of `decodeAttrs` terminates (its
budget is never exhausted); whenever it returns a list without error there are at least 8
buffer bytes per returned attribute, so at most `len / 8` attributes; and under the guard of
the loop the value slice `buffer[offset : offset + length]` ends within the buffer. -/
theorem decodeAttrs_terminates_bounded (buffer hdr : Slice) :
    decodeAttrs buffer hdr ≠ .panic .fuel
      ∧ (∀ attrs, decodeAttrs buffer hdr = .ret (attrs, none) →
          8 * attrs.length ≤ buffer.data.length ∧ attrs.length ≤ buffer.data.length / 8)
      ∧ (∀ offset length : Int, 0 ≤ offset → 0 ≤ length →
          ¬ (length = 0 ∨ length + offset > (buffer.data.length : Int)) →
          ∃ value, buffer.slice offset (offset + length) = .ret value
            ∧ (value.data.length : Int) = length
            ∧ offset + length ≤ (buffer.data.length : Int)) := by
  refine ⟨decodeAttrs_noFuel buffer hdr, ?_, ?_⟩
  · intro attrs h
    have := loop_bound buffer hdr _ _ 0 [] attrs (by simp) h
    simp only [NewReader, List.length_nil] at this
    omega
  · intro offset length h0 hl hg
    obtain ⟨v, hv, hvl⟩ := slice_guarded buffer offset length h0 hl hg
    exact ⟨v, hv, hvl, by omega⟩

/-- C20 at a buffer holding one MAPPED-ADDRESS attribute. -/
theorem decodeAttrs_terminates_bounded_witness :
    decodeAttrs ⟨[0, 1, 0, 8, 0, 1, 0x1F, 0x90, 192, 168, 1, 2], []⟩ ⟨sampleHeader, []⟩
        ≠ .panic .fuel
      ∧ (8 * [({ PacketType := 1,
                 Data := { Family := 4, Address := "192.168.1.2", Port := "8080",
                           Packet := "MAPPED-ADDRESS" } } : Attrs)].length
            ≤ ([0, 1, 0, 8, 0, 1, 0x1F, 0x90, 192, 168, 1, 2] : List Nat).length
          ∧ [({ PacketType := 1,
                Data := { Family := 4, Address := "192.168.1.2", Port := "8080",
                          Packet := "MAPPED-ADDRESS" } } : Attrs)].length
            ≤ ([0, 1, 0, 8, 0, 1, 0x1F, 0x90, 192, 168, 1, 2] : List Nat).length / 8)
      ∧ ∃ value,
          Slice.slice ⟨[0, 1, 0, 8, 0, 1, 0x1F, 0x90, 192, 168, 1, 2], []⟩ 4 (4 + 8)
            = .ret value
          ∧ (value.data.length : Int) = 8
          ∧ (4 : Int) + 8 ≤ (([0, 1, 0, 8, 0, 1, 0x1F, 0x90, 192, 168, 1, 2] : List Nat).length
                : Int) :=
  ⟨(decodeAttrs_terminates_bounded _ _).1,
   (decodeAttrs_terminates_bounded ⟨[0, 1, 0, 8, 0, 1, 0x1F, 0x90, 192, 168, 1, 2], []⟩
      ⟨sampleHeader, []⟩).2.1 _ (by decide),
   (decodeAttrs_terminates_bounded ⟨[0, 1, 0, 8, 0, 1, 0x1F, 0x90, 192, 168, 1, 2], []⟩
      ⟨sampleHeader, []⟩).2.2 4 8 (by decide) (by decide) (by decide)⟩

end Stun
